import Mathlib

/-!
# bugcatcher: the per-frame game state machine of `src/main.js`

A shallow embedding of the game logic of `main.js`: the `Bug` and `Splash`
classes, `updateGame`, `updateSplashes`, `drawBugs`, `checkBugCollisions`,
`checkPlayAgainButton` and the frame driver `showPredictions`.

Modelling conventions.

* JavaScript numbers that carry coordinates, sizes and times are exact
  rationals (no rounding, no `NaN`); `score` and `missedBugs` are integers.
* The module-level `let` variables are the fields of `Game`.
* `Date.now()` and `Math.random()` are oracles: `Game.clock` and `Game.rand`
  hold the values the *future* calls will return, in call order.  Every call
  in the source reads index `0` and shifts the stream by one.
* Canvas drawing, audio and `console.log` have no effect on the game state and
  are left out; of the drawing code only the mutation `this.wiggle += 0.3` of
  `Bug.draw` and the `Date.now()` calls of `drawGameOverScreen` are kept.
* `canvas.width`, `canvas.height`, `window.innerWidth` and
  `window.innerHeight` are the fields of `Env`; they are fixed while frames run.
-/

namespace BugCatcher

/-! ## Data -/

/-- A bounding box `[x, y, width, height]` as delivered in `prediction.bbox`. -/
structure BBox where
  x : ℚ
  y : ℚ
  width : ℚ
  height : ℚ
deriving DecidableEq

/-- One detection of the hand-tracking model: `{ class, score, bbox }`. -/
structure Prediction where
  cls : Int
  score : ℚ
  bbox : BBox
deriving DecidableEq

/-- One particle object of `Splash.particles`. -/
structure Particle where
  x : ℚ
  y : ℚ
  vx : ℚ
  vy : ℚ
  size : ℚ
  color : Option String
  life : ℚ
deriving DecidableEq

/-- An instance of `class Splash`. -/
structure Splash where
  x : ℚ
  y : ℚ
  particles : List Particle
  createdAt : ℚ
  lifetime : ℚ
deriving DecidableEq

/-- An instance of `class Bug`.  The property `processed` does not exist on a
fresh bug (`undefined`, falsy); it is represented by `false`. -/
structure Bug where
  x : ℚ
  y : ℚ
  radius : ℚ
  lifetime : ℚ
  createdAt : ℚ
  caught : Bool
  wiggle : ℚ
  processed : Bool
deriving DecidableEq

/-- The sizes read from the page: `canvas.width`, `canvas.height`,
`window.innerWidth`, `window.innerHeight`. -/
structure Env where
  width : ℚ
  height : ℚ
  innerWidth : ℚ
  innerHeight : ℚ

/-- The module-level variables of `main.js` that the game logic reads and
writes, together with the two oracles `clock` (future results of `Date.now()`)
and `rand` (future results of `Math.random()`). -/
structure Game where
  score : Int
  bugs : List Bug
  splashes : List Splash
  missedBugs : Int
  gameOver : Bool
  currentHandBoxes : List BBox
  restartHoldStart : ℚ
  isHoldingRestart : Bool
  clock : Nat → ℚ
  rand : Nat → ℚ

/-- The constant `restartHoldDuration = 5000` (never reassigned). -/
def restartHoldDuration : ℚ := 5000

/-- The state after one `Date.now()` call (whose result was `w.clock 0`). -/
def Game.tick (w : Game) : Game :=
  { w with clock := fun n => w.clock (n + 1) }

/-- The state after one `Math.random()` call (whose result was `w.rand 0`). -/
def Game.roll (w : Game) : Game :=
  { w with rand := fun n => w.rand (n + 1) }

/-- The values of the module-level variables when the script is loaded. -/
def Game.initial (clock rand : Nat → ℚ) : Game :=
  { score := 0
    bugs := []
    splashes := []
    missedBugs := 0
    gameOver := false
    currentHandBoxes := []
    restartHoldStart := 0
    isHoldingRestart := false
    clock := clock
    rand := rand }

/-! ## Geometry -/

/-- The body of the `some` callback of `isPositionInHand`. -/
def overlapsHand (x y radius : ℚ) (bbox : BBox) : Bool :=
  decide (x - radius < bbox.x + bbox.width ∧
          x + radius > bbox.x ∧
          y - radius < bbox.y + bbox.height ∧
          y + radius > bbox.y)

/-- `isPositionInHand(x, y, radius)`. -/
def isPositionInHand (w : Game) (x y radius : ℚ) : Bool :=
  w.currentHandBoxes.any (overlapsHand x y radius)

/-! ## Splash -/

/-- The palette of `getRandomSplashColor`. -/
def splashColors : List String :=
  ["#FF4444", "#FF6666", "#CC0000", "#AA0000", "#FF8888"]

/-- `getRandomSplashColor()`: `colors[Math.floor(Math.random() * colors.length)]`;
an index outside the array gives `undefined`, here `none`. -/
def getRandomSplashColor (w : Game) : Option String × Game :=
  let i := Rat.floor (w.rand 0 * (splashColors.length : ℚ))
  (if 0 ≤ i then splashColors.get? i.toNat else none, w.roll)

/-- One iteration of the particle loop of the `Splash` constructor: four
`Math.random()` calls, for `vx`, `vy`, `size` and the colour, in that order. -/
def newParticle (x y : ℚ) (w : Game) : Particle × Game :=
  let vx := (w.rand 0 - 0.5) * 8
  let w1 := w.roll
  let vy := (w1.rand 0 - 0.5) * 8
  let w2 := w1.roll
  let size := w2.rand 0 * 6 + 3
  let w3 := w2.roll
  let c := getRandomSplashColor w3
  ({ x := x, y := y, vx := vx, vy := vy, size := size, color := c.1, life := 1 }, c.2)

/-- The loop `for (let i = 0; i < 8; i++) this.particles.push(...)`, with `n`
iterations left. -/
def newParticles (x y : ℚ) : Nat → Game → List Particle × Game
  | 0, w => ([], w)
  | n + 1, w =>
    let p := newParticle x y w
    let r := newParticles x y n p.2
    (p.1 :: r.1, r.2)

/-- `new Splash(x, y)`. -/
def Splash.new (x y : ℚ) (w : Game) : Splash × Game :=
  let createdAt := w.clock 0
  let r := newParticles x y 8 w.tick
  ({ x := x, y := y, particles := r.1, createdAt := createdAt, lifetime := 800 }, r.2)

/-- The body of the `forEach` callback of `Splash.update`. -/
def Particle.step (lifeRatio : ℚ) (p : Particle) : Particle :=
  let x := p.x + p.vx
  let y := p.y + p.vy
  let vy := p.vy + 0.2
  let vx := p.vx * 0.98
  let vy := vy * 0.98
  { p with x := x, y := y, vx := vx, vy := vy,
           life := max 0 lifeRatio, size := max 0 (p.size * 0.99) }

/-- `Splash.update()`. -/
def Splash.update (s : Splash) (w : Game) : Splash × Game :=
  let age := w.clock 0 - s.createdAt
  let lifeRatio := 1 - age / s.lifetime
  ({ s with particles := s.particles.map (Particle.step lifeRatio) }, w.tick)

/-- `Splash.isExpired()`. -/
def Splash.isExpired (s : Splash) (w : Game) : Bool × Game :=
  (decide (w.clock 0 - s.createdAt > s.lifetime), w.tick)

/-! ## Bug -/

/-- The assignment
`this.x = Math.random() * (canvas?.width - 60) + 30 || Math.random() * window.innerWidth`
(and the same for `y`): the right operand of `||` is evaluated, and is the
result, exactly when the left one is `0`. -/
def sampleCoord (extent inner : ℚ) (w : Game) : ℚ × Game :=
  let v := w.rand 0 * (extent - 60) + 30
  let w1 := w.roll
  if v = 0 then (w1.rand 0 * inner, w1.roll) else (v, w1)

/-- The placement loop of the `Bug` constructor,
`while (!validPosition && attempts < 50)`, with `n = 50 - attempts` iterations
left; `x`, `y` are the current `this.x`, `this.y`. -/
def placeBug (env : Env) : Nat → ℚ → ℚ → Game → (ℚ × ℚ) × Game
  | 0, x, y, w => ((x, y), w)
  | n + 1, _, _, w =>
    let sx := sampleCoord env.width env.innerWidth w
    let sy := sampleCoord env.height env.innerHeight sx.2
    if !isPositionInHand sy.2 sx.1 sy.1 25 then ((sx.1, sy.1), sy.2)
    else placeBug env n sx.1 sy.1 sy.2

/-- `new Bug()`.  Before the first iteration `this.x` and `this.y` are unset;
the loop always runs at least once, so the start values `0` are never used. -/
def Bug.new (env : Env) (w : Game) : Bug × Game :=
  let p := placeBug env 50 0 0 w
  let w1 := p.2
  let lifetime := w1.rand 0 * 3700 + 300
  let w2 := w1.roll
  let createdAt := w2.clock 0
  ({ x := p.1.1, y := p.1.2, radius := 25, lifetime := lifetime, createdAt := createdAt,
     caught := false, wiggle := 0, processed := false }, w2.tick)

/-- The state mutation of `Bug.draw(ctx)`: nothing once caught, else
`this.wiggle += 0.3`. -/
def Bug.draw (b : Bug) : Bug :=
  if b.caught then b else { b with wiggle := b.wiggle + 0.3 }

/-- The comparison of `Bug.isExpired()` at clock reading `now`. -/
def Bug.expiredAt (b : Bug) (now : ℚ) : Bool :=
  decide (now - b.createdAt > b.lifetime)

/-- `Bug.isExpired()`: one `Date.now()` call. -/
def Bug.isExpired (b : Bug) (w : Game) : Bool × Game :=
  (b.expiredAt (w.clock 0), w.tick)

/-- `Bug.checkCollision(handBbox)`. -/
def Bug.checkCollision (b : Bug) (handBbox : BBox) : Bool :=
  if b.caught then false
  else decide (b.x ≥ handBbox.x ∧ b.x ≤ handBbox.x + handBbox.width ∧
               b.y ≥ handBbox.y ∧ b.y ≤ handBbox.y + handBbox.height)

/-! ## The game step -/

/-- The spawn statement of `updateGame`:
`if (Math.random() < 0.008) bugs.push(new Bug())`. -/
def spawnStep (env : Env) (w : Game) : Game :=
  if w.rand 0 < 0.008 then
    let r := Bug.new env w.roll
    { r.2 with bugs := r.2.bugs ++ [r.1] }
  else w.roll

/-- The body of the first `bugs.forEach` callback of `updateGame`, applied to
one bug: returns the new globals and the (possibly mutated) bug. -/
def expireBug (w : Game) (b : Bug) : Game × Bug :=
  let e := b.isExpired w
  if e.1 && !b.caught && !b.processed then
    let w1 : Game :=
      { e.2 with score := max 0 (e.2.score - 1), missedBugs := e.2.missedBugs + 1 }
    let w2 : Game := if w1.missedBugs ≥ 3 then { w1 with gameOver := true } else w1
    (w2, { b with processed := true })
  else (e.2, b)

/-- The loop `bugs.forEach(bug => { ... })` of `updateGame` over the given
bugs, in order. -/
def expireLoop : Game → List Bug → Game × List Bug
  | w, [] => (w, [])
  | w, b :: bs =>
    let r := expireBug w b
    let rs := expireLoop r.1 bs
    (rs.1, r.2 :: rs.2)

/-- The expiry pass of `updateGame` on the global `bugs`. -/
def expireStep (w : Game) : Game :=
  let r := expireLoop w w.bugs
  { r.1 with bugs := r.2 }

/-- The loop of `bugs.filter(bug => !bug.isExpired() && !bug.caught)`; the
callback calls `isExpired()` (one clock reading) for every bug. -/
def keepLoop : Game → List Bug → Game × List Bug
  | w, [] => (w, [])
  | w, b :: bs =>
    let e := b.isExpired w
    let rs := keepLoop e.2 bs
    (rs.1, if !e.1 && !b.caught then b :: rs.2 else rs.2)

/-- The statement `bugs = bugs.filter(...)` of `updateGame`. -/
def removeStep (w : Game) : Game :=
  let r := keepLoop w w.bugs
  { r.1 with bugs := r.2 }

/-- `updateGame()`. -/
def updateGame (env : Env) (w : Game) : Game :=
  if w.gameOver then w
  else removeStep (expireStep (spawnStep env w))

/-- The loop `splashes.forEach(splash => splash.update())`. -/
def updateLoop : Game → List Splash → Game × List Splash
  | w, [] => (w, [])
  | w, s :: ss =>
    let r := s.update w
    let rs := updateLoop r.2 ss
    (rs.1, r.1 :: rs.2)

/-- The loop of `splashes.filter(splash => !splash.isExpired())`. -/
def keepSplashLoop : Game → List Splash → Game × List Splash
  | w, [] => (w, [])
  | w, s :: ss =>
    let e := s.isExpired w
    let rs := keepSplashLoop e.2 ss
    (rs.1, if !e.1 then s :: rs.2 else rs.2)

/-- `updateSplashes()`. -/
def updateSplashes (w : Game) : Game :=
  let r := updateLoop w w.splashes
  let k := keepSplashLoop r.1 r.2
  { k.1 with splashes := k.2 }

/-- The state mutation of `drawBugs()`. -/
def drawBugs (w : Game) : Game :=
  { w with bugs := w.bugs.map Bug.draw }

/-- The body of the `forEach` callback of `checkBugCollisions`, applied to one
bug: returns the new globals and the (possibly mutated) bug. -/
def collideBug (handBbox : BBox) (w : Game) (b : Bug) : Game × Bug :=
  if b.checkCollision handBbox then
    let w1 : Game := { w with score := w.score + 1 }
    let s := Splash.new b.x b.y w1
    ({ s.2 with splashes := s.2.splashes ++ [s.1] }, { b with caught := true })
  else (w, b)

/-- The loop `bugs.forEach(bug => { ... })` of `checkBugCollisions` over the
given bugs, in order. -/
def collideLoop (handBbox : BBox) : Game → List Bug → Game × List Bug
  | w, [] => (w, [])
  | w, b :: bs =>
    let r := collideBug handBbox w b
    let rs := collideLoop handBbox r.1 bs
    (rs.1, r.2 :: rs.2)

/-- `checkBugCollisions(handBbox)`. -/
def checkBugCollisions (w : Game) (handBbox : BBox) : Game :=
  let r := collideLoop handBbox w w.bugs
  { r.1 with bugs := r.2 }

/-! ## Game over and restart -/

/-- The `Date.now()` calls of `drawGameOverScreen()`: one for the hold
progress when `isHoldingRestart && restartHoldStart > 0`, one for the
remaining time when `isHoldingRestart`. -/
def drawGameOverScreen (w : Game) : Game :=
  let w1 := if w.isHoldingRestart && decide (w.restartHoldStart > 0) then w.tick else w
  if w1.isHoldingRestart then w1.tick else w1

/-- The local constant `isOverButton` of `checkPlayAgainButton`. -/
def isOverButton (env : Env) (handBbox : BBox) : Bool :=
  let centerX := env.width / 2
  let centerY := env.height / 2
  let buttonWidth : ℚ := 160
  let buttonHeight : ℚ := 50
  let buttonX := centerX - buttonWidth / 2
  let buttonY := centerY + 40
  decide (handBbox.x < buttonX + buttonWidth ∧ handBbox.x + handBbox.width > buttonX ∧
          handBbox.y < buttonY + buttonHeight ∧ handBbox.y + handBbox.height > buttonY)

/-- `checkPlayAgainButton(handBbox)`. -/
def checkPlayAgainButton (env : Env) (w : Game) (handBbox : BBox) : Game :=
  if !w.gameOver then w
  else if isOverButton env handBbox then
    let w1 :=
      if !w.isHoldingRestart then
        { w.tick with isHoldingRestart := true, restartHoldStart := w.clock 0 }
      else w
    let elapsed := w1.clock 0 - w1.restartHoldStart
    let w2 := w1.tick
    if elapsed ≥ restartHoldDuration then
      { w2 with score := 0, missedBugs := 0, gameOver := false, bugs := [], splashes := [],
                isHoldingRestart := false, restartHoldStart := 0 }
    else w2
  else if w.isHoldingRestart then
    { w with isHoldingRestart := false, restartHoldStart := 0 }
  else w

/-! ## The frame driver -/

/-- The hand detections of a frame: `predictions.filter(p => p.class !== 5)`. -/
def handPredictions (predictions : List Prediction) : List Prediction :=
  predictions.filter (fun prediction => prediction.cls != 5)

/-- `showPredictions(predictions)`: one frame. -/
def showPredictions (env : Env) (w : Game) (predictions : List Prediction) : Game :=
  let hands := handPredictions predictions
  let w0 : Game := { w with currentHandBoxes := hands.map (fun (pred : Prediction) => pred.bbox) }
  if w0.gameOver then
    hands.foldl (fun acc (prediction : Prediction) => checkPlayAgainButton env acc prediction.bbox)
      (drawGameOverScreen w0)
  else
    hands.foldl (fun acc (prediction : Prediction) => checkBugCollisions acc prediction.bbox)
      (drawBugs (updateSplashes (updateGame env w0)))

/-- The state after a sequence of frames. -/
def run (env : Env) (w : Game) (frames : List (List Prediction)) : Game :=
  frames.foldl (showPredictions env) w

/-! ## Auxiliary definitions for the statements -/

/-- The state `w` after `k` further `Date.now()` calls and `m` further
`Math.random()` calls, all other variables untouched. -/
def Game.shift (w : Game) (k m : Nat) : Game :=
  { w with clock := fun n => w.clock (n + k), rand := fun n => w.rand (n + m) }

/-- The state `v` is `w` after some calls of `Date.now()` and `Math.random()`
and nothing else. -/
def Game.IsShift (w v : Game) : Prop :=
  ∃ k m, v = w.shift k m

/-- The clock of `v` is the clock of `w` after some `Date.now()` calls. -/
def Game.Later (w v : Game) : Prop :=
  ∃ k, ∀ n, v.clock n = w.clock (n + k)

/-- The scoring invariant: `score` and `missedBugs` are not negative, and
`gameOver` is set exactly when three or more bugs have been missed. -/
def Game.Sound (w : Game) : Prop :=
  0 ≤ w.score ∧ 0 ≤ w.missedBugs ∧ (w.gameOver = true ↔ 3 ≤ w.missedBugs)

/-- The effect of the expiry callback of `updateGame` on the bug itself, when
`isExpired()` reads the clock value `now`. -/
def Bug.markEscaped (b : Bug) (now : ℚ) : Bug :=
  if b.expiredAt now && !b.caught && !b.processed then { b with processed := true } else b

/-- The effect of the callback of `checkBugCollisions` on the bug itself. -/
def Bug.squash (handBbox : BBox) (b : Bug) : Bug :=
  if b.checkCollision handBbox then { b with caught := true } else b

/-- No bug of the collection carries the `processed` flag. -/
def Game.NoProcessed (w : Game) : Prop :=
  ∀ b ∈ w.bugs, b.processed = false

/-- No bug of the collection is both caught and counted as escaped. -/
def Game.Exclusive (w : Game) : Prop :=
  ∀ b ∈ w.bugs, ¬ (b.caught = true ∧ b.processed = true)

/-- The successive states of the module variables during one call of
`showPredictions`: after `currentHandBoxes` is stored, then either after
`drawGameOverScreen` and after each `checkPlayAgainButton`, or after the
spawn statement, the expiry loop, the `filter` of `updateGame`,
`updateSplashes`, `drawBugs` and each `checkBugCollisions`. -/
def frameTrace (env : Env) (w : Game) (predictions : List Prediction) : List Game :=
  let hands := handPredictions predictions
  let w0 : Game := { w with currentHandBoxes := hands.map (fun (pred : Prediction) => pred.bbox) }
  if w0.gameOver then
    w0 :: List.scanl (fun acc (prediction : Prediction) =>
      checkPlayAgainButton env acc prediction.bbox) (drawGameOverScreen w0) hands
  else
    [w0, spawnStep env w0, expireStep (spawnStep env w0), updateGame env w0,
      updateSplashes (updateGame env w0)] ++
    List.scanl (fun acc (prediction : Prediction) => checkBugCollisions acc prediction.bbox)
      (drawBugs (updateSplashes (updateGame env w0))) hands

/-- The state `v` agrees with `w` on everything but the restart-hold
variables `isHoldingRestart`, `restartHoldStart` and the clock. -/
def Game.Frozen (w v : Game) : Prop :=
  v.score = w.score ∧ v.bugs = w.bugs ∧ v.splashes = w.splashes ∧
    v.missedBugs = w.missedBugs ∧ v.gameOver = w.gameOver ∧
    v.currentHandBoxes = w.currentHandBoxes ∧ v.rand = w.rand

/-- The bug's centre `(x, y)` lies inside the hand box, bounds inclusive. -/
def centreInBox (b : Bug) (handBbox : BBox) : Bool :=
  decide (handBbox.x ≤ b.x ∧ b.x ≤ handBbox.x + handBbox.width ∧
          handBbox.y ≤ b.y ∧ b.y ≤ handBbox.y + handBbox.height)

/-- The bug is not yet caught and its centre lies inside at least one of the
hand boxes. -/
def hitBy (hands : List BBox) (b : Bug) : Bool :=
  !b.caught && hands.any (centreInBox b)

/-- The bug after the hand boxes were processed: caught if it was hit,
unchanged otherwise. -/
def markCaught (hands : List BBox) (b : Bug) : Bug :=
  if hitBy hands b then { b with caught := true } else b

/-- The bug is expired at clock reading `now` and not caught: it escapes. -/
def escapesAt (now : ℚ) (b : Bug) : Bool :=
  b.expiredAt now && !b.caught

/-- The predicate of the `filter` of `updateGame` at clock reading `now`: the
bug is neither expired nor caught. -/
def survivesAt (now : ℚ) (b : Bug) : Bool :=
  !b.expiredAt now && !b.caught

/-- The position of a splash. -/
def Splash.pos (s : Splash) : ℚ × ℚ := (s.x, s.y)

/-- The position of a bug's centre. -/
def Bug.pos (b : Bug) : ℚ × ℚ := (b.x, b.y)

/-- The state after the first assignment of `showPredictions`:
`currentHandBoxes = handPredictions.map(pred => pred.bbox)`. -/
def Game.withHands (w : Game) (predictions : List Prediction) : Game :=
  { w with currentHandBoxes :=
      (handPredictions predictions).map (fun (pred : Prediction) => pred.bbox) }

/-- The number of bugs of a collection that carry the `caught` flag. -/
def caughtCount (bs : List Bug) : Nat :=
  bs.countP (fun b => b.caught)

/-- The number of bugs of a collection that carry the `processed` flag. -/
def processedCount (bs : List Bug) : Nat :=
  bs.countP (fun b => b.processed)

/-- The number of bugs marked `processed` by the expiry loop of `updateGame`
in the frame `showPredictions(predictions)` started in state `w`: the
`processed` flags in the collection after the loop minus those before it. -/
def frameEscapes (env : Env) (w : Game) (predictions : List Prediction) : Nat :=
  let w0 : Game := { w with currentHandBoxes :=
    (handPredictions predictions).map (fun (pred : Prediction) => pred.bbox) }
  if w0.gameOver then 0
  else processedCount (expireStep (spawnStep env w0)).bugs - processedCount (spawnStep env w0).bugs

/-- The number of bugs marked `caught` by the `checkBugCollisions` calls of
the frame `showPredictions(predictions)` started in state `w`: the `caught`
flags in the collection at the end of the frame minus those before the first
call. -/
def frameCatches (env : Env) (w : Game) (predictions : List Prediction) : Nat :=
  let w0 : Game := { w with currentHandBoxes :=
    (handPredictions predictions).map (fun (pred : Prediction) => pred.bbox) }
  if w0.gameOver then 0
  else caughtCount (showPredictions env w predictions).bugs -
    caughtCount (drawBugs (updateSplashes (updateGame env w0))).bugs

/-- A state together with the numbers of catches and escapes counted since
the game started or was last restarted. -/
structure Tally where
  state : Game
  catches : Nat
  escapes : Nat

/-- One frame with bookkeeping: a Playing frame adds its catches and escapes,
a game-over frame that restarts the game sets both counts back to `0`, any
other game-over frame leaves them. -/
def tallyFrame (env : Env) (t : Tally) (predictions : List Prediction) : Tally :=
  let v := showPredictions env t.state predictions
  if t.state.gameOver then
    if v.gameOver then { t with state := v } else { state := v, catches := 0, escapes := 0 }
  else
    { state := v
      catches := t.catches + frameCatches env t.state predictions
      escapes := t.escapes + frameEscapes env t.state predictions }

/-- A sequence of frames with bookkeeping, from state `w` with both counts `0`. -/
def tally (env : Env) (w : Game) (frames : List (List Prediction)) : Tally :=
  frames.foldl (tallyFrame env) { state := w, catches := 0, escapes := 0 }

/-- The effect on the score of one Playing frame with `ce.1` catches and
`ce.2` escapes: `updateGame` runs first and applies `Math.max(0, score - 1)`
once per escape, then `checkBugCollisions` adds `1` per catch. -/
def frameScore (s : Int) (ce : Nat × Nat) : Int :=
  max 0 (s - (ce.2 : Int)) + (ce.1 : Int)

/-- The score obtained from `0` by replaying a list of per-frame
`(catches, escapes)` counts in order. -/
def clampedScore (log : List (Nat × Nat)) : Int :=
  log.foldl frameScore 0

/-- One frame of the replay that also counts the escapes that deduct nothing:
of the `ce.2` escapes of a frame started at score `p.1`, all but the first
`p.1` find the score at `0`. -/
def absorbStep (p : Int × Nat) (ce : Nat × Nat) : Int × Nat :=
  (frameScore p.1 ce, p.2 + (ce.2 - p.1.toNat))

/-- The number of escapes of a list of per-frame `(catches, escapes)` counts
that happen while the replayed score is `0`. -/
def absorbed (log : List (Nat × Nat)) : Nat :=
  (log.foldl absorbStep (0, 0)).2

/-- The catches of a list of per-frame `(catches, escapes)` counts. -/
def totalCatches (log : List (Nat × Nat)) : Nat :=
  (log.map Prod.fst).sum

/-- The escapes of a list of per-frame `(catches, escapes)` counts. -/
def totalEscapes (log : List (Nat × Nat)) : Nat :=
  (log.map Prod.snd).sum

/-- A state together with the per-frame `(catches, escapes)` counts of the
Playing frames since the game started or was last restarted, oldest first. -/
structure Ledger where
  state : Game
  log : List (Nat × Nat)

/-- One frame with a ledger: a Playing frame appends its counts, a game-over
frame that restarts the game empties the ledger, any other game-over frame
leaves it. -/
def ledgerFrame (env : Env) (l : Ledger) (predictions : List Prediction) : Ledger :=
  let v := showPredictions env l.state predictions
  if l.state.gameOver then
    if v.gameOver then { l with state := v } else { state := v, log := [] }
  else
    { state := v
      log := l.log ++ [(frameCatches env l.state predictions,
        frameEscapes env l.state predictions)] }

/-- A sequence of frames with a ledger, from state `w` with an empty ledger. -/
def ledger (env : Env) (w : Game) (frames : List (List Prediction)) : Ledger :=
  frames.foldl (ledgerFrame env) { state := w, log := [] }

/-- One iteration's sampling in the placement loop of the `Bug` constructor:
the two assignments to `this.x` and `this.y`; returns the sampled position and
the state after the draws. -/
def samplePosition (env : Env) (w : Game) : (ℚ × ℚ) × Game :=
  let sx := sampleCoord env.width env.innerWidth w
  let sy := sampleCoord env.height env.innerHeight sx.2
  ((sx.1, sy.1), sy.2)

/-- The stream of sampled positions from state `w`: `nthSample env i w` is the
position sampled in iteration `i` (counted from `0`) together with the state
after it. -/
def nthSample (env : Env) : Nat → Game → (ℚ × ℚ) × Game
  | 0, w => samplePosition env w
  | n + 1, w => nthSample env n (samplePosition env w).2

/-- The test of the expiry callback of `updateGame` at clock reading `now`:
`bug.isExpired() && !bug.caught && !bug.processed`. -/
def chargedAt (now : ℚ) (b : Bug) : Bool :=
  b.expiredAt now && !b.caught && !b.processed

/-! ## Concrete runs -/

/-- A 640 x 480 canvas in a 1280 x 720 window. -/
def demoEnv : Env :=
  { width := 640, height := 480, innerWidth := 1280, innerHeight := 720 }

/-- A clock that reads `0` for the first 24 calls of `Date.now()` and `5000`
from then on. -/
def jumpClock (n : Nat) : ℚ := if n < 24 then 0 else 5000

/-- Random draws that are all `0`: every frame spawns a bug, at `(30, 30)`
with lifetime `300`. -/
def zeroRand (_ : Nat) : ℚ := 0

/-- Five frames without any detection. -/
def fiveEmptyFrames : List (List Prediction) := [[], [], [], [], []]

/-- A clock that reads `0` for the first three calls of `Date.now()` (the
first frame) and `1000` from then on. -/
def stepClock (n : Nat) : ℚ := if n < 3 then 0 else 1000

/-- Random draws that are `0` except the fifth and the tenth, which are
`1/2`: the first and third frame spawn a bug (at `(30, 30)`, lifetime `300`),
the second and fourth do not. -/
def demoRand (n : Nat) : ℚ := if n = 4 ∨ n = 9 then 1 / 2 else 0

/-- A hand detection (class 1) whose box `[0, 0, 60, 60]` covers `(30, 30)`. -/
def cornerHand : Prediction :=
  { cls := 1, score := 9 / 10, bbox := { x := 0, y := 0, width := 60, height := 60 } }

/-- The score lies between `max 0 (catches - escapes)` and `catches`. -/
def Tally.Bounded (t : Tally) : Prop :=
  0 ≤ t.state.score ∧ (t.catches : Int) - (t.escapes : Int) ≤ t.state.score ∧
    t.state.score ≤ (t.catches : Int)

/-- The four frames of the demonstration run: three without detection, then
one with a hand over `(30, 30)`. -/
def demoFrames : List (List Prediction) := [[], [], [], [cornerHand]]

/-- A game-over state with a running restart hold started at `1000`, one bug
and a score of `2`, in which every `Date.now()` call returns `6000`. -/
def heldState : Game :=
  { score := 2
    bugs := [{ x := 30, y := 30, radius := 25, lifetime := 300, createdAt := 900,
               caught := false, wiggle := 0, processed := false }]
    splashes := []
    missedBugs := 3
    gameOver := true
    currentHandBoxes := []
    restartHoldStart := 1000
    isHoldingRestart := true
    clock := fun _ => 6000
    rand := zeroRand }

/-- A hand box over the Play-Again button of `demoEnv` (the button occupies
`[240, 400] x [280, 330]`). -/
def buttonHand : BBox := { x := 300, y := 290, width := 60, height := 60 }

/-- A hand box in the top-left corner, away from the Play-Again button. -/
def awayHand : BBox := { x := 0, y := 0, width := 50, height := 50 }

/-- A clock that reads `0` during the first frame (three calls of
`Date.now()`) and `1001` from then on. -/
def expiryClock (n : Nat) : ℚ := if n < 3 then 0 else 1001

/-- Random draws for one spawn: the first frame spawns a bug at `(30, 30)`
with lifetime `7/37 * 3700 + 300 = 1000`, the second frame spawns none. -/
def expiryRand (n : Nat) : ℚ := if n = 3 then 7 / 37 else if n = 4 then 1 / 2 else 0

/-- A state whose single hand box `[0, 0, 1000, 1000]` covers the whole canvas
of `demoEnv`, with random draws `n / 1000`. -/
def coveredState : Game :=
  { Game.initial (fun _ => 0) (fun n => (n : ℚ) / 1000) with
    currentHandBoxes := [{ x := 0, y := 0, width := 1000, height := 1000 }] }

/-- A clock for the restart-hold run: `0` for the first 24 calls of `Date.now()`
(four frames), `5000` for the next 11 (the frame that ends the game), `6000`
for the next two (the frame that starts the hold), `8000` and `10000` for two
calls each (two frames without a hand) and `11000` from then on. -/
def holdClock (n : Nat) : ℚ :=
  if n < 24 then 0 else if n < 35 then 5000 else if n < 37 then 6000
  else if n < 39 then 8000 else if n < 41 then 10000 else 11000

/-- A hand detection (class 1) over the Play-Again button of `demoEnv`. -/
def buttonPrediction : Prediction := { cls := 1, score := 9 / 10, bbox := buttonHand }

/-- A face detection (class 5) at the same place. -/
def facePrediction : Prediction := { cls := 5, score := 9 / 10, bbox := buttonHand }

/-- Five frames without detection, which end the game, then one frame with a
hand over the Play-Again button. -/
def holdFrames : List (List Prediction) := [[], [], [], [], [], [buttonPrediction]]

/-- Two frames without a hand box: no detection at all, then only a face. -/
def idleFrames : List (List Prediction) := [[], [facePrediction]]

/-- A clock that steps back once: `0` during the first frame (three calls of
`Date.now()`), `1000` for the expiry loop of the second frame, `100` for its
`filter`, and `1000` from then on. -/
def backClock (n : Nat) : ℚ := if n < 3 then 0 else if n = 4 then 100 else 1000

/-- Random draws for one spawn in the first frame (a bug at `(30, 30)` with
lifetime `300`) and none afterwards. -/
def backRand (n : Nat) : ℚ := if n < 4 then 0 else 1 / 2

/-- A Playing state with three bugs at clock reading `1000`: one expired and
already processed, one expired and not yet processed, one still alive. -/
def mixedState : Game :=
  { score := 5
    bugs := [{ x := 30, y := 30, radius := 25, lifetime := 300, createdAt := 0,
               caught := false, wiggle := 0, processed := true },
             { x := 60, y := 60, radius := 25, lifetime := 300, createdAt := 100,
               caught := false, wiggle := 0, processed := false },
             { x := 90, y := 90, radius := 25, lifetime := 3000, createdAt := 500,
               caught := false, wiggle := 0, processed := false }]
    splashes := []
    missedBugs := 1
    gameOver := false
    currentHandBoxes := []
    restartHoldStart := 0
    isHoldingRestart := false
    clock := fun _ => 1000
    rand := fun _ => 1 / 2 }

/-! ## Oracle bookkeeping -/

section Shift

theorem Game.shift_zero (w : Game) : w.shift 0 0 = w := rfl

theorem Game.shift_shift (w : Game) (k m k2 m2 : Nat) :
    (w.shift k m).shift k2 m2 = w.shift (k2 + k) (m2 + m) := by
  simp [Game.shift, Nat.add_assoc]

theorem Game.tick_eq (w : Game) : w.tick = w.shift 1 0 := rfl

theorem Game.roll_eq (w : Game) : w.roll = w.shift 0 1 := rfl

theorem Game.IsShift.same (w : Game) : w.IsShift w := ⟨0, 0, rfl⟩

theorem Game.IsShift.seq {u v w : Game} (h1 : u.IsShift v) (h2 : v.IsShift w) :
    u.IsShift w := by
  obtain ⟨k, m, rfl⟩ := h1
  obtain ⟨k2, m2, rfl⟩ := h2
  exact ⟨k2 + k, m2 + m, Game.shift_shift u k m k2 m2⟩

theorem Game.isShift_tick (w : Game) : w.IsShift w.tick := ⟨1, 0, rfl⟩

theorem Game.isShift_roll (w : Game) : w.IsShift w.roll := ⟨0, 1, rfl⟩

theorem Game.Later.still (w : Game) : w.Later w := ⟨0, fun _ => rfl⟩

theorem Game.Later.next {u v w : Game} (h1 : u.Later v) (h2 : v.Later w) : u.Later w := by
  obtain ⟨k, hk⟩ := h1
  obtain ⟨k2, hk2⟩ := h2
  exact ⟨k2 + k, fun n => by rw [hk2, hk, Nat.add_assoc]⟩

theorem Game.IsShift.later {w v : Game} (h : w.IsShift v) : w.Later v := by
  obtain ⟨k, m, rfl⟩ := h
  exact ⟨k, fun _ => rfl⟩

theorem Game.Later.of_clock_eq {w v : Game} (h : v.clock = w.clock) : w.Later v :=
  ⟨0, fun n => by rw [h]; rfl⟩

theorem Game.Later.monotone {w v : Game} (h : w.Later v) (hm : Monotone w.clock) :
    Monotone v.clock := by
  obtain ⟨k, hk⟩ := h
  intro a b hab
  rw [hk, hk]
  exact hm (Nat.add_le_add_right hab k)

theorem Game.Later.const {w v : Game} (h : w.Later v) {now : ℚ} (hc : ∀ i, w.clock i = now) :
    ∀ i, v.clock i = now := by
  obtain ⟨k, hk⟩ := h
  intro i
  rw [hk, hc]

theorem isShift_getRandomSplashColor (w : Game) : w.IsShift (getRandomSplashColor w).2 :=
  w.isShift_roll

theorem isShift_newParticle (x y : ℚ) (w : Game) : w.IsShift (newParticle x y w).2 :=
  (((w.isShift_roll).seq (Game.isShift_roll _)).seq (Game.isShift_roll _)).seq
    (isShift_getRandomSplashColor _)

theorem isShift_newParticles (x y : ℚ) (n : Nat) (w : Game) :
    w.IsShift (newParticles x y n w).2 := by
  induction n generalizing w with
  | zero => exact Game.IsShift.same w
  | succ n ih => exact (isShift_newParticle x y w).seq (ih _)

theorem isShift_Splash_new (x y : ℚ) (w : Game) : w.IsShift (Splash.new x y w).2 :=
  (w.isShift_tick).seq (isShift_newParticles x y 8 _)

theorem isShift_sampleCoord (a b : ℚ) (w : Game) : w.IsShift (sampleCoord a b w).2 := by
  unfold sampleCoord
  dsimp only
  split
  · exact (w.isShift_roll).seq (Game.isShift_roll _)
  · exact w.isShift_roll

theorem isShift_placeBug (env : Env) (n : Nat) (x y : ℚ) (w : Game) :
    w.IsShift (placeBug env n x y w).2 := by
  induction n generalizing x y w with
  | zero => exact Game.IsShift.same w
  | succ n ih =>
    have h2 : w.IsShift
        (sampleCoord env.height env.innerHeight (sampleCoord env.width env.innerWidth w).2).2 :=
      (isShift_sampleCoord _ _ w).seq (isShift_sampleCoord _ _ _)
    unfold placeBug
    dsimp only
    split
    · exact h2
    · exact h2.seq (ih _ _ _)

theorem isShift_Bug_new (env : Env) (w : Game) : w.IsShift (Bug.new env w).2 :=
  ((isShift_placeBug env 50 0 0 w).seq (Game.isShift_roll _)).seq (Game.isShift_tick _)

theorem isShift_keepLoop (w : Game) (bs : List Bug) : w.IsShift (keepLoop w bs).1 := by
  induction bs generalizing w with
  | nil => exact Game.IsShift.same w
  | cons b bs ih => exact (w.isShift_tick).seq (ih _)

theorem isShift_updateLoop (w : Game) (ss : List Splash) : w.IsShift (updateLoop w ss).1 := by
  induction ss generalizing w with
  | nil => exact Game.IsShift.same w
  | cons s ss ih => exact (w.isShift_tick).seq (ih _)

theorem isShift_keepSplashLoop (w : Game) (ss : List Splash) :
    w.IsShift (keepSplashLoop w ss).1 := by
  induction ss generalizing w with
  | nil => exact Game.IsShift.same w
  | cons s ss ih => exact (w.isShift_tick).seq (ih _)

theorem isShift_drawGameOverScreen (w : Game) : w.IsShift (drawGameOverScreen w) := by
  unfold drawGameOverScreen
  dsimp only
  split <;> split <;>
    first
      | exact Game.IsShift.same w
      | exact w.isShift_tick
      | exact (w.isShift_tick).seq (Game.isShift_tick _)

end Shift

/-! ## The scoring invariant -/

section Sound

theorem Game.Sound.congr {w v : Game} (h : w.Sound) (hs : v.score = w.score)
    (hm : v.missedBugs = w.missedBugs) (hg : v.gameOver = w.gameOver) : v.Sound := by
  unfold Game.Sound at *
  rw [hs, hm, hg]
  exact h

theorem Game.Sound.of_isShift {w v : Game} (h : w.Sound) (hv : w.IsShift v) : v.Sound := by
  obtain ⟨k, m, rfl⟩ := hv
  exact h.congr rfl rfl rfl

theorem Game.sound_initial (clock rand : Nat → ℚ) : (Game.initial clock rand).Sound := by
  simp [Game.Sound, Game.initial]

theorem sound_expireBug (w : Game) (b : Bug) (h : w.Sound) : (expireBug w b).1.Sound := by
  obtain ⟨h1, h2, h3⟩ := h
  unfold expireBug
  dsimp only [Bug.isExpired]
  split
  · split
    · rename_i hge
      refine ⟨le_max_left _ _, ?_, ?_⟩
      · show 0 ≤ w.missedBugs + 1
        omega
      · simpa using hge
    · rename_i hlt
      refine ⟨le_max_left _ _, ?_, ?_⟩
      · show 0 ≤ w.missedBugs + 1
        omega
      · show w.gameOver = true ↔ 3 ≤ w.missedBugs + 1
        have hlt2 : ¬ (3 ≤ w.missedBugs + 1) := by simpa using hlt
        constructor
        · intro hg
          have := h3.1 hg
          omega
        · intro h4
          exact absurd h4 hlt2
  · exact ⟨h1, h2, h3⟩

theorem later_expireBug (w : Game) (b : Bug) : w.Later (expireBug w b).1 := by
  refine ⟨1, fun n => ?_⟩
  unfold expireBug
  dsimp only [Bug.isExpired]
  split
  · split <;> rfl
  · rfl

theorem sound_expireLoop (w : Game) (bs : List Bug) (h : w.Sound) :
    (expireLoop w bs).1.Sound := by
  induction bs generalizing w with
  | nil => exact h
  | cons b bs ih => exact ih _ (sound_expireBug w b h)

theorem later_expireLoop (w : Game) (bs : List Bug) : w.Later (expireLoop w bs).1 := by
  induction bs generalizing w with
  | nil => exact Game.Later.still w
  | cons b bs ih => exact (later_expireBug w b).next (ih _)

theorem sound_spawnStep (env : Env) (w : Game) (h : w.Sound) : (spawnStep env w).Sound := by
  unfold spawnStep
  split
  · have hs := h.of_isShift ((w.isShift_roll).seq (isShift_Bug_new env w.roll))
    exact hs.congr rfl rfl rfl
  · exact h.of_isShift w.isShift_roll

theorem later_spawnStep (env : Env) (w : Game) : w.Later (spawnStep env w) := by
  unfold spawnStep
  split
  · exact (((w.isShift_roll).seq (isShift_Bug_new env w.roll)).later).next
      (Game.Later.of_clock_eq rfl)
  · exact (w.isShift_roll).later

theorem sound_expireStep (w : Game) (h : w.Sound) : (expireStep w).Sound :=
  (sound_expireLoop w w.bugs h).congr rfl rfl rfl

theorem later_expireStep (w : Game) : w.Later (expireStep w) :=
  (later_expireLoop w w.bugs).next (Game.Later.of_clock_eq rfl)

theorem sound_removeStep (w : Game) (h : w.Sound) : (removeStep w).Sound :=
  (h.of_isShift (isShift_keepLoop w w.bugs)).congr rfl rfl rfl

theorem later_removeStep (w : Game) : w.Later (removeStep w) :=
  ((isShift_keepLoop w w.bugs).later).next (Game.Later.of_clock_eq rfl)

theorem sound_updateGame (env : Env) (w : Game) (h : w.Sound) : (updateGame env w).Sound := by
  unfold updateGame
  split
  · exact h
  · exact sound_removeStep _ (sound_expireStep _ (sound_spawnStep env w h))

theorem later_updateGame (env : Env) (w : Game) : w.Later (updateGame env w) := by
  unfold updateGame
  split
  · exact Game.Later.still w
  · exact ((later_spawnStep env w).next (later_expireStep _)).next (later_removeStep _)

theorem sound_updateSplashes (w : Game) (h : w.Sound) : (updateSplashes w).Sound :=
  (h.of_isShift ((isShift_updateLoop w w.splashes).seq (isShift_keepSplashLoop _ _))).congr
    rfl rfl rfl

theorem later_updateSplashes (w : Game) : w.Later (updateSplashes w) :=
  (((isShift_updateLoop w w.splashes).seq (isShift_keepSplashLoop _ _)).later).next
    (Game.Later.of_clock_eq rfl)

theorem sound_drawBugs (w : Game) (h : w.Sound) : (drawBugs w).Sound :=
  h.congr rfl rfl rfl

theorem later_drawBugs (w : Game) : w.Later (drawBugs w) :=
  Game.Later.of_clock_eq rfl

theorem sound_collideBug (hb : BBox) (w : Game) (b : Bug) (h : w.Sound) :
    (collideBug hb w b).1.Sound := by
  unfold collideBug
  split
  · obtain ⟨k, m, hkm⟩ := isShift_Splash_new b.x b.y { w with score := w.score + 1 }
    dsimp only
    rw [hkm]
    exact ⟨by have := h.1; show 0 ≤ w.score + 1; omega, h.2.1, h.2.2⟩
  · exact h

theorem later_collideBug (hb : BBox) (w : Game) (b : Bug) : w.Later (collideBug hb w b).1 := by
  unfold collideBug
  split
  · obtain ⟨k, m, hkm⟩ := isShift_Splash_new b.x b.y { w with score := w.score + 1 }
    dsimp only
    rw [hkm]
    exact ⟨k, fun _ => rfl⟩
  · exact Game.Later.still w

theorem sound_collideLoop (hb : BBox) (w : Game) (bs : List Bug) (h : w.Sound) :
    (collideLoop hb w bs).1.Sound := by
  induction bs generalizing w with
  | nil => exact h
  | cons b bs ih => exact ih _ (sound_collideBug hb w b h)

theorem later_collideLoop (hb : BBox) (w : Game) (bs : List Bug) :
    w.Later (collideLoop hb w bs).1 := by
  induction bs generalizing w with
  | nil => exact Game.Later.still w
  | cons b bs ih => exact (later_collideBug hb w b).next (ih _)

theorem sound_checkBugCollisions (w : Game) (hb : BBox) (h : w.Sound) :
    (checkBugCollisions w hb).Sound :=
  (sound_collideLoop hb w w.bugs h).congr rfl rfl rfl

theorem later_checkBugCollisions (w : Game) (hb : BBox) : w.Later (checkBugCollisions w hb) :=
  (later_collideLoop hb w w.bugs).next (Game.Later.of_clock_eq rfl)

theorem sound_checkPlayAgainButton (env : Env) (w : Game) (hb : BBox) (h : w.Sound) :
    (checkPlayAgainButton env w hb).Sound := by
  unfold checkPlayAgainButton
  dsimp only
  split
  · exact h
  · split
    · split
      · split
        · simp [Game.Sound]
        · exact h
      · split
        · simp [Game.Sound]
        · exact h
    · split
      · exact h
      · exact h

theorem later_checkPlayAgainButton (env : Env) (w : Game) (hb : BBox) :
    w.Later (checkPlayAgainButton env w hb) := by
  unfold checkPlayAgainButton
  dsimp only
  split
  · exact Game.Later.still w
  · split
    · split
      · split
        · exact ⟨2, fun _ => rfl⟩
        · exact ⟨2, fun _ => rfl⟩
      · split
        · exact ⟨1, fun _ => rfl⟩
        · exact ⟨1, fun _ => rfl⟩
    · split <;> exact ⟨0, fun _ => rfl⟩

theorem sound_foldl_collisions (hands : List Prediction) (w : Game) (h : w.Sound) :
    (hands.foldl (fun acc (p : Prediction) => checkBugCollisions acc p.bbox) w).Sound := by
  induction hands generalizing w with
  | nil => exact h
  | cons p ps ih => exact ih _ (sound_checkBugCollisions w p.bbox h)

theorem later_foldl_collisions (hands : List Prediction) (w : Game) :
    w.Later (hands.foldl (fun acc (p : Prediction) => checkBugCollisions acc p.bbox) w) := by
  induction hands generalizing w with
  | nil => exact Game.Later.still w
  | cons p ps ih => exact (later_checkBugCollisions w p.bbox).next (ih _)

theorem sound_foldl_playAgain (env : Env) (hands : List Prediction) (w : Game) (h : w.Sound) :
    (hands.foldl (fun acc (p : Prediction) => checkPlayAgainButton env acc p.bbox) w).Sound := by
  induction hands generalizing w with
  | nil => exact h
  | cons p ps ih => exact ih _ (sound_checkPlayAgainButton env w p.bbox h)

theorem later_foldl_playAgain (env : Env) (hands : List Prediction) (w : Game) :
    w.Later (hands.foldl (fun acc (p : Prediction) => checkPlayAgainButton env acc p.bbox) w) := by
  induction hands generalizing w with
  | nil => exact Game.Later.still w
  | cons p ps ih => exact (later_checkPlayAgainButton env w p.bbox).next (ih _)

theorem sound_showPredictions (env : Env) (w : Game) (preds : List Prediction) (h : w.Sound) :
    (showPredictions env w preds).Sound := by
  have h0 : ({ w with currentHandBoxes :=
      (handPredictions preds).map (fun (pred : Prediction) => pred.bbox) } : Game).Sound :=
    h.congr rfl rfl rfl
  unfold showPredictions
  dsimp only
  split
  · exact sound_foldl_playAgain env _ _ (h0.of_isShift (isShift_drawGameOverScreen _))
  · exact sound_foldl_collisions _ _
      (sound_drawBugs _ (sound_updateSplashes _ (sound_updateGame env _ h0)))

theorem later_showPredictions (env : Env) (w : Game) (preds : List Prediction) :
    w.Later (showPredictions env w preds) := by
  have h0 : w.Later ({ w with currentHandBoxes :=
      (handPredictions preds).map (fun (pred : Prediction) => pred.bbox) } : Game) :=
    Game.Later.of_clock_eq rfl
  unfold showPredictions
  dsimp only
  split
  · exact (h0.next (isShift_drawGameOverScreen _).later).next (later_foldl_playAgain env _ _)
  · exact (((h0.next (later_updateGame env _)).next (later_updateSplashes _)).next
      (later_drawBugs _)).next (later_foldl_collisions _ _)

theorem run_nil (env : Env) (w : Game) : run env w [] = w := rfl

theorem run_cons (env : Env) (w : Game) (p : List Prediction) (ps : List (List Prediction)) :
    run env w (p :: ps) = run env (showPredictions env w p) ps := rfl

theorem run_append (env : Env) (w : Game) (ps qs : List (List Prediction)) :
    run env w (ps ++ qs) = run env (run env w ps) qs := by
  simp [run, List.foldl_append]

theorem sound_run (env : Env) (frames : List (List Prediction)) (w : Game) (h : w.Sound) :
    (run env w frames).Sound := by
  induction frames generalizing w with
  | nil => exact h
  | cons p ps ih => exact ih _ (sound_showPredictions env w p h)

theorem later_run (env : Env) (frames : List (List Prediction)) (w : Game) :
    w.Later (run env w frames) := by
  induction frames generalizing w with
  | nil => exact Game.Later.still w
  | cons p ps ih => exact (later_showPredictions env w p).next (ih _)

end Sound

/-! ## C1 – C3: counters and phase -/

theorem monotone_jumpClock : Monotone jumpClock := by
  intro a b hab
  unfold jumpClock
  split <;> split <;> first | omega | norm_num

/-- C1, as stated, fails: after five detection-free frames in which four bugs
spawned at clock reading `0` expire together once the (non-decreasing) clock
reads `5000`, `missedBugs` is `4`, outside the range `[0, 3]`. -/
theorem missedBugs_exceeds_three :
    Monotone jumpClock ∧
      (run demoEnv (Game.initial jumpClock zeroRand) fiveEmptyFrames).missedBugs = 4 ∧
      ¬ ((run demoEnv (Game.initial jumpClock zeroRand) fiveEmptyFrames).missedBugs ≤ 3) :=
  ⟨monotone_jumpClock, by decide!, by decide!⟩

/-- C1, amended: in every state reachable from the initial state by any
sequence of frames (any detections, any clock, any random draws),
`missedBugs` is at least `0`, and it is at most `2` whenever the game is not
over. -/
theorem missedBugs_bounds_reachable (env : Env) (clock rand : Nat → ℚ)
    (frames : List (List Prediction)) :
    0 ≤ (run env (Game.initial clock rand) frames).missedBugs ∧
      ((run env (Game.initial clock rand) frames).gameOver = false →
        (run env (Game.initial clock rand) frames).missedBugs ≤ 2) := by
  obtain ⟨_, h2, h3⟩ := sound_run env frames _ (Game.sound_initial clock rand)
  refine ⟨h2, fun hg => ?_⟩
  by_contra hlt
  have h4 : (run env (Game.initial clock rand) frames).gameOver = true := h3.2 (by omega)
  rw [hg] at h4
  exact Bool.false_ne_true h4

/-- C2: in every state reachable from the initial state by any sequence of
frames (any detections, any clock values, any random draws), `score ≥ 0`. -/
theorem score_nonneg_reachable (env : Env) (clock rand : Nat → ℚ)
    (frames : List (List Prediction)) :
    0 ≤ (run env (Game.initial clock rand) frames).score :=
  (sound_run env frames _ (Game.sound_initial clock rand)).1

/-- C3: in every state reachable from the initial state by any sequence of
frames, `gameOver` is true if and only if `missedBugs ≥ 3`; and a frame that
starts with `missedBugs < 3` and ends with `missedBugs ≥ 3` ends with
`gameOver = true`. -/
theorem gameOver_iff_three_missed (env : Env) (clock rand : Nat → ℚ)
    (frames : List (List Prediction)) (preds : List Prediction) :
    ((run env (Game.initial clock rand) frames).gameOver = true ↔
        3 ≤ (run env (Game.initial clock rand) frames).missedBugs) ∧
      ((run env (Game.initial clock rand) frames).missedBugs < 3 →
        3 ≤ (showPredictions env (run env (Game.initial clock rand) frames) preds).missedBugs →
        (showPredictions env (run env (Game.initial clock rand) frames) preds).gameOver = true) := by
  have h := sound_run env frames _ (Game.sound_initial clock rand)
  exact ⟨h.2.2, fun _ h3 => (sound_showPredictions env _ preds h).2.2.2 h3⟩


/-! ## C4: caught and processed exclude each other -/

section Flags

theorem expireBug_snd (w : Game) (b : Bug) : (expireBug w b).2 = b.markEscaped (w.clock 0) := by
  unfold expireBug Bug.markEscaped
  dsimp only [Bug.isExpired]
  split <;> rfl

theorem expireBug_clock (w : Game) (b : Bug) (n : Nat) :
    (expireBug w b).1.clock n = w.clock (n + 1) := by
  unfold expireBug
  dsimp only [Bug.isExpired]
  split
  · split <;> rfl
  · rfl

theorem Bug.markEscaped_caught (b : Bug) (now : ℚ) : (b.markEscaped now).caught = b.caught := by
  unfold Bug.markEscaped
  split <;> rfl

theorem Bug.markEscaped_expiredAt (b : Bug) (now t : ℚ) :
    (b.markEscaped now).expiredAt t = b.expiredAt t := by
  unfold Bug.markEscaped
  split <;> rfl

theorem Bug.markEscaped_processed (b : Bug) (now : ℚ)
    (h : (b.markEscaped now).processed = true) :
    b.processed = true ∨ (b.expiredAt now = true ∧ b.caught = false) := by
  unfold Bug.markEscaped at h
  split at h
  · rename_i hc
    simp only [Bool.and_eq_true, Bool.not_eq_true'] at hc
    exact Or.inr ⟨hc.1.1, hc.1.2⟩
  · exact Or.inl h

theorem Bug.expiredAt_mono (b : Bug) {s t : ℚ} (hst : s ≤ t) (h : b.expiredAt s = true) :
    b.expiredAt t = true := by
  unfold Bug.expiredAt at *
  simp only [decide_eq_true_eq] at *
  linarith

theorem Bug.markEscaped_exclusive (b : Bug) (now : ℚ)
    (h : ¬ (b.caught = true ∧ b.processed = true)) :
    ¬ ((b.markEscaped now).caught = true ∧ (b.markEscaped now).processed = true) := by
  rintro ⟨hc, hp⟩
  rw [Bug.markEscaped_caught] at hc
  rcases Bug.markEscaped_processed b now hp with h1 | h1
  · exact h ⟨hc, h1⟩
  · rw [h1.2] at hc
    exact Bool.false_ne_true hc

theorem expireLoop_exclusive (w : Game) (bs : List Bug)
    (h : ∀ b ∈ bs, ¬ (b.caught = true ∧ b.processed = true)) :
    ∀ b ∈ (expireLoop w bs).2, ¬ (b.caught = true ∧ b.processed = true) := by
  induction bs generalizing w with
  | nil => intro b hb; cases hb
  | cons a bs ih =>
    intro b hb
    have hb2 : b ∈ (expireBug w a).2 :: (expireLoop (expireBug w a).1 bs).2 := hb
    rcases List.mem_cons.1 hb2 with rfl | hb3
    · rw [expireBug_snd]
      exact Bug.markEscaped_exclusive a _ (h a (List.mem_cons_self _ _))
    · exact ih _ (fun c hc => h c (List.mem_cons_of_mem _ hc)) b hb3

theorem keepLoop_subset (w : Game) (bs : List Bug) : ∀ b ∈ (keepLoop w bs).2, b ∈ bs := by
  induction bs generalizing w with
  | nil => intro b hb; cases hb
  | cons a bs ih =>
    intro b hb
    have hb2 : b ∈ (if (!(a.isExpired w).1 && !a.caught) = true
        then a :: (keepLoop (a.isExpired w).2 bs).2 else (keepLoop (a.isExpired w).2 bs).2) := hb
    split at hb2
    · rcases List.mem_cons.1 hb2 with rfl | hb3
      · exact List.mem_cons_self _ _
      · exact List.mem_cons_of_mem _ (ih _ b hb3)
    · exact List.mem_cons_of_mem _ (ih _ b hb2)

theorem keepLoop_expireLoop_noProcessed (bs : List Bug) (w v : Game)
    (hle : ∀ i, w.clock i ≤ v.clock i) (hbs : ∀ b ∈ bs, b.processed = false) :
    ∀ b ∈ (keepLoop v (expireLoop w bs).2).2, b.processed = false := by
  induction bs generalizing w v with
  | nil => intro b hb; cases hb
  | cons a bs ih =>
    intro b hb
    have ih2 := ih (expireBug w a).1 v.tick
      (fun i => by rw [expireBug_clock]; exact hle (i + 1))
      (fun c hc => hbs c (List.mem_cons_of_mem _ hc))
    have hb2 : b ∈ (if (!((expireBug w a).2.isExpired v).1 && !(expireBug w a).2.caught) = true
        then (expireBug w a).2 :: (keepLoop v.tick (expireLoop (expireBug w a).1 bs).2).2
        else (keepLoop v.tick (expireLoop (expireBug w a).1 bs).2).2) := hb
    split at hb2
    · rename_i hkeep
      rcases List.mem_cons.1 hb2 with rfl | hb3
      · rw [expireBug_snd] at hkeep ⊢
        simp only [Bug.isExpired, Bug.markEscaped_expiredAt, Bug.markEscaped_caught,
          Bool.and_eq_true, Bool.not_eq_true'] at hkeep
        by_contra hp
        have hp2 : (a.markEscaped (w.clock 0)).processed = true := by
          simpa using hp
        rcases Bug.markEscaped_processed a _ hp2 with h1 | h1
        · rw [hbs a (List.mem_cons_self _ _)] at h1
          exact Bool.false_ne_true h1
        · have := Bug.expiredAt_mono a (hle 0) h1.1
          rw [hkeep.1] at this
          exact Bool.false_ne_true this
      · exact ih2 b hb3
    · exact ih2 b hb2

theorem Game.IsShift.bugs_eq {w v : Game} (h : w.IsShift v) : v.bugs = w.bugs := by
  obtain ⟨k, m, rfl⟩ := h
  rfl

theorem Game.IsShift.splashes_eq {w v : Game} (h : w.IsShift v) : v.splashes = w.splashes := by
  obtain ⟨k, m, rfl⟩ := h
  rfl

theorem Game.IsShift.score_eq {w v : Game} (h : w.IsShift v) : v.score = w.score := by
  obtain ⟨k, m, rfl⟩ := h
  rfl

theorem Game.IsShift.missedBugs_eq {w v : Game} (h : w.IsShift v) :
    v.missedBugs = w.missedBugs := by
  obtain ⟨k, m, rfl⟩ := h
  rfl

theorem Game.IsShift.gameOver_eq {w v : Game} (h : w.IsShift v) : v.gameOver = w.gameOver := by
  obtain ⟨k, m, rfl⟩ := h
  rfl

theorem spawnStep_bugs (env : Env) (w : Game) :
    (spawnStep env w).bugs =
      w.bugs ++ (if w.rand 0 < 0.008 then [(Bug.new env w.roll).1] else []) := by
  unfold spawnStep
  split
  · show (Bug.new env w.roll).2.bugs ++ [(Bug.new env w.roll).1] = _
    rw [((w.isShift_roll).seq (isShift_Bug_new env w.roll)).bugs_eq]
  · simp [Game.roll]

theorem noProcessed_spawnStep (env : Env) (w : Game) (h : w.NoProcessed) :
    (spawnStep env w).NoProcessed := by
  intro b hb
  rw [spawnStep_bugs] at hb
  rcases List.mem_append.1 hb with h1 | h1
  · exact h b h1
  · split at h1
    · rw [List.mem_singleton.1 h1]
      rfl
    · cases h1

theorem noProcessed_removeStep_expireStep (w : Game) (hm : Monotone w.clock)
    (h : w.NoProcessed) : (removeStep (expireStep w)).NoProcessed := by
  intro b hb
  refine keepLoop_expireLoop_noProcessed w.bugs w (expireStep w) (fun i => ?_) h b hb
  obtain ⟨k, hk⟩ := later_expireStep w
  rw [hk]
  exact hm (Nat.le_add_right i k)

theorem noProcessed_updateGame (env : Env) (w : Game) (hm : Monotone w.clock)
    (h : w.NoProcessed) : (updateGame env w).NoProcessed := by
  unfold updateGame
  split
  · exact h
  · exact noProcessed_removeStep_expireStep _ ((later_spawnStep env w).monotone hm)
      (noProcessed_spawnStep env w h)

theorem updateSplashes_bugs (w : Game) : (updateSplashes w).bugs = w.bugs :=
  ((isShift_updateLoop w w.splashes).seq (isShift_keepSplashLoop _ _)).bugs_eq

theorem noProcessed_drawBugs (w : Game) (h : w.NoProcessed) : (drawBugs w).NoProcessed := by
  intro b hb
  obtain ⟨a, ha, rfl⟩ := List.mem_map.1 hb
  unfold Bug.draw
  split
  · exact h a ha
  · exact h a ha

theorem collideBug_snd (hb : BBox) (w : Game) (b : Bug) :
    (collideBug hb w b).2 = b.squash hb := by
  unfold collideBug Bug.squash
  split <;> rfl

theorem collideLoop_snd (hb : BBox) (w : Game) (bs : List Bug) :
    (collideLoop hb w bs).2 = bs.map (Bug.squash hb) := by
  induction bs generalizing w with
  | nil => rfl
  | cons b bs ih =>
    show (collideBug hb w b).2 :: (collideLoop hb (collideBug hb w b).1 bs).2 = _
    rw [collideBug_snd, ih, List.map_cons]

theorem checkBugCollisions_bugs (w : Game) (hb : BBox) :
    (checkBugCollisions w hb).bugs = w.bugs.map (Bug.squash hb) :=
  collideLoop_snd hb w w.bugs

theorem noProcessed_checkBugCollisions (w : Game) (hb : BBox) (h : w.NoProcessed) :
    (checkBugCollisions w hb).NoProcessed := by
  intro b hmem
  rw [checkBugCollisions_bugs] at hmem
  obtain ⟨a, ha, rfl⟩ := List.mem_map.1 hmem
  unfold Bug.squash
  split
  · exact h a ha
  · exact h a ha

theorem checkPlayAgainButton_bugs (env : Env) (w : Game) (hb : BBox) :
    (checkPlayAgainButton env w hb).bugs = w.bugs ∨ (checkPlayAgainButton env w hb).bugs = [] := by
  unfold checkPlayAgainButton
  dsimp only
  split
  · exact Or.inl rfl
  · split
    · split
      · split
        · exact Or.inr rfl
        · exact Or.inl rfl
      · split
        · exact Or.inr rfl
        · exact Or.inl rfl
    · split <;> exact Or.inl rfl

theorem noProcessed_checkPlayAgainButton (env : Env) (w : Game) (hb : BBox)
    (h : w.NoProcessed) : (checkPlayAgainButton env w hb).NoProcessed := by
  intro b hmem
  rcases checkPlayAgainButton_bugs env w hb with h1 | h1
  · rw [h1] at hmem
    exact h b hmem
  · rw [h1] at hmem
    cases hmem

theorem Game.NoProcessed.exclusive {w : Game} (h : w.NoProcessed) : w.Exclusive := by
  rintro b hb ⟨_, hp⟩
  rw [h b hb] at hp
  exact Bool.false_ne_true hp

theorem forall_mem_scanl {α β : Type} (P : α → Prop) (f : α → β → α)
    (hf : ∀ a x, P a → P (f a x)) (l : List β) (a : α) (ha : P a) :
    ∀ s ∈ List.scanl f a l, P s := by
  induction l generalizing a with
  | nil =>
    intro s hs
    rw [List.scanl_nil, List.mem_singleton] at hs
    rw [hs]
    exact ha
  | cons x xs ih =>
    intro s hs
    rw [List.scanl_cons, List.singleton_append, List.mem_cons] at hs
    rcases hs with rfl | hs
    · exact ha
    · exact ih _ (hf a x ha) s hs

theorem getLast?_scanl {α β : Type} (f : α → β → α) (l : List β) (a : α) :
    (List.scanl f a l).getLast? = some (List.foldl f a l) := by
  induction l generalizing a with
  | nil => rfl
  | cons x xs ih =>
    rw [List.scanl_cons, List.getLast?_append, ih]
    rfl

theorem noProcessed_foldl_collisions (hands : List Prediction) (w : Game) (h : w.NoProcessed) :
    (hands.foldl (fun acc (p : Prediction) => checkBugCollisions acc p.bbox) w).NoProcessed := by
  induction hands generalizing w with
  | nil => exact h
  | cons p ps ih => exact ih _ (noProcessed_checkBugCollisions w p.bbox h)

theorem noProcessed_foldl_playAgain (env : Env) (hands : List Prediction) (w : Game)
    (h : w.NoProcessed) :
    (hands.foldl (fun acc (p : Prediction) =>
      checkPlayAgainButton env acc p.bbox) w).NoProcessed := by
  induction hands generalizing w with
  | nil => exact h
  | cons p ps ih => exact ih _ (noProcessed_checkPlayAgainButton env w p.bbox h)

theorem noProcessed_showPredictions (env : Env) (w : Game) (preds : List Prediction)
    (hm : Monotone w.clock) (h : w.NoProcessed) : (showPredictions env w preds).NoProcessed := by
  have h0 : ({ w with currentHandBoxes :=
      (handPredictions preds).map (fun (pred : Prediction) => pred.bbox) } : Game).NoProcessed := h
  have hm0 : Monotone ({ w with currentHandBoxes :=
      (handPredictions preds).map (fun (pred : Prediction) => pred.bbox) } : Game).clock := hm
  unfold showPredictions
  dsimp only
  split
  · refine noProcessed_foldl_playAgain env _ _ ?_
    intro b hb
    rw [(isShift_drawGameOverScreen _).bugs_eq] at hb
    exact h b hb
  · refine noProcessed_foldl_collisions _ _ (noProcessed_drawBugs _ ?_)
    intro b hb
    rw [updateSplashes_bugs] at hb
    exact noProcessed_updateGame env _ hm0 h0 b hb

theorem noProcessed_run (env : Env) (frames : List (List Prediction)) (w : Game)
    (hm : Monotone w.clock) (h : w.NoProcessed) : (run env w frames).NoProcessed := by
  induction frames generalizing w with
  | nil => exact h
  | cons p ps ih =>
    exact ih _ ((later_showPredictions env w p).monotone hm)
      (noProcessed_showPredictions env w p hm h)

theorem noProcessed_initial (clock rand : Nat → ℚ) : (Game.initial clock rand).NoProcessed := by
  intro b hb
  cases hb

theorem frameTrace_getLast? (env : Env) (w : Game) (preds : List Prediction) :
    (frameTrace env w preds).getLast? = some (showPredictions env w preds) := by
  unfold frameTrace showPredictions
  dsimp only
  split
  · rw [List.getLast?_cons, getLast?_scanl]
    rfl
  · rw [List.getLast?_append, getLast?_scanl]
    rfl

theorem exclusive_frameTrace (env : Env) (w : Game) (preds : List Prediction)
    (hm : Monotone w.clock) (h : w.NoProcessed) :
    ∀ s ∈ frameTrace env w preds, s.Exclusive := by
  have h0 : ({ w with currentHandBoxes :=
      (handPredictions preds).map (fun (pred : Prediction) => pred.bbox) } : Game).NoProcessed := h
  have hm0 : Monotone ({ w with currentHandBoxes :=
      (handPredictions preds).map (fun (pred : Prediction) => pred.bbox) } : Game).clock := hm
  unfold frameTrace
  dsimp only
  split
  · intro s hs
    rcases List.mem_cons.1 hs with rfl | hs
    · exact h0.exclusive
    · refine (forall_mem_scanl Game.NoProcessed _ ?_ _ _ ?_ s hs).exclusive
      · intro a x ha
        exact noProcessed_checkPlayAgainButton env a x.bbox ha
      · intro b hb
        rw [(isShift_drawGameOverScreen _).bugs_eq] at hb
        exact h b hb
  · intro s hs
    have hu := noProcessed_updateGame env _ hm0 h0
    rcases List.mem_append.1 hs with hs | hs
    · simp only [List.mem_cons, List.mem_singleton, List.not_mem_nil, or_false] at hs
      rcases hs with rfl | rfl | rfl | rfl | rfl
      · exact h0.exclusive
      · exact (noProcessed_spawnStep env _ h0).exclusive
      · exact expireLoop_exclusive _ _ (noProcessed_spawnStep env _ h0).exclusive
      · exact hu.exclusive
      · intro b hb
        rw [updateSplashes_bugs] at hb
        exact hu.exclusive b hb
    · refine (forall_mem_scanl Game.NoProcessed _ ?_ _ _ ?_ s hs).exclusive
      · intro a x ha
        exact noProcessed_checkBugCollisions a x.bbox ha
      · refine noProcessed_drawBugs _ ?_
        intro b hb
        rw [updateSplashes_bugs] at hb
        exact hu b hb

theorem monotone_stepClock : Monotone stepClock := by
  intro a b hab
  unfold stepClock
  split <;> split <;> first | omega | norm_num

end Flags

/-- C4: over any sequence of frames with a non-decreasing clock, in every
state of the module variables that occurs during a frame (frame start, after
the spawn, after the expiry loop of `updateGame`, after its `filter`, after
`updateSplashes`, after `drawBugs` and after each `checkBugCollisions` or
`checkPlayAgainButton`) no bug is both `caught` and `processed`; at every frame
boundary no bug of the collection is `processed` at all, so that
`checkBugCollisions` never meets a bug already counted as escaped, and the
expiry loop never marks a caught bug. -/
theorem caught_processed_exclusive (env : Env) (clock rand : Nat → ℚ)
    (frames : List (List Prediction)) (preds : List Prediction) (hmono : Monotone clock) :
    (frameTrace env (run env (Game.initial clock rand) frames) preds).getLast? =
        some (run env (Game.initial clock rand) (frames ++ [preds])) ∧
      (∀ s ∈ frameTrace env (run env (Game.initial clock rand) frames) preds,
        ∀ b ∈ s.bugs, ¬ (b.caught = true ∧ b.processed = true)) ∧
      (∀ b ∈ (run env (Game.initial clock rand) frames).bugs, b.processed = false) := by
  have hm : Monotone (run env (Game.initial clock rand) frames).clock :=
    (later_run env frames _).monotone hmono
  have hn := noProcessed_run env frames _ hmono (noProcessed_initial clock rand)
  refine ⟨?_, exclusive_frameTrace env _ preds hm hn, hn⟩
  rw [frameTrace_getLast?, run_append]
  rfl

/-- C4 at a concrete run: a bug escapes in the second frame, another one is
spawned in the third and caught in the fourth. -/
theorem caught_processed_exclusive_demo :
    Monotone stepClock ∧
      (frameTrace demoEnv (run demoEnv (Game.initial stepClock demoRand) [[], [], []])
          [cornerHand]).getLast? =
        some (run demoEnv (Game.initial stepClock demoRand) ([[], [], []] ++ [[cornerHand]])) ∧
      (∀ s ∈ frameTrace demoEnv (run demoEnv (Game.initial stepClock demoRand) [[], [], []])
          [cornerHand],
        ∀ b ∈ s.bugs, ¬ (b.caught = true ∧ b.processed = true)) ∧
      (∀ b ∈ (run demoEnv (Game.initial stepClock demoRand) [[], [], []]).bugs,
        b.processed = false) :=
  ⟨monotone_stepClock,
    caught_processed_exclusive demoEnv stepClock demoRand [[], [], []] [cornerHand]
      monotone_stepClock⟩


/-! ## C6, C7, C10: game over and the restart hold -/

section Restart

theorem isOverButton_iff (env : Env) (hb : BBox) :
    isOverButton env hb = true ↔
      (hb.x < env.width / 2 - 80 + 160 ∧ hb.x + hb.width > env.width / 2 - 80 ∧
        hb.y < env.height / 2 + 40 + 50 ∧ hb.y + hb.height > env.height / 2 + 40) := by
  unfold isOverButton
  simp only [decide_eq_true_eq]
  norm_num

theorem checkPlayAgainButton_playing (env : Env) (w : Game) (hb : BBox)
    (h : w.gameOver = false) : checkPlayAgainButton env w hb = w := by
  simp [checkPlayAgainButton, h]

theorem foldl_playAgain_playing (env : Env) (hands : List Prediction) (w : Game)
    (h : w.gameOver = false) :
    hands.foldl (fun acc (p : Prediction) => checkPlayAgainButton env acc p.bbox) w = w := by
  induction hands with
  | nil => rfl
  | cons p ps ih =>
    rw [List.foldl_cons, checkPlayAgainButton_playing env w p.bbox h]
    exact ih

theorem Game.Frozen.unchanged (w : Game) : w.Frozen w :=
  ⟨rfl, rfl, rfl, rfl, rfl, rfl, rfl⟩

theorem Game.Frozen.andThen {u v w : Game} (h1 : u.Frozen v) (h2 : v.Frozen w) : u.Frozen w := by
  obtain ⟨a1, a2, a3, a4, a5, a6, a7⟩ := h1
  obtain ⟨b1, b2, b3, b4, b5, b6, b7⟩ := h2
  exact ⟨b1.trans a1, b2.trans a2, b3.trans a3, b4.trans a4, b5.trans a5, b6.trans a6,
    b7.trans a7⟩

theorem frozen_checkPlayAgainButton (env : Env) (w : Game) (hb : BBox)
    (hend : (checkPlayAgainButton env w hb).gameOver = true) :
    w.Frozen (checkPlayAgainButton env w hb) := by
  revert hend
  unfold checkPlayAgainButton
  dsimp only
  split
  · exact fun _ => Game.Frozen.unchanged w
  · rename_i hgo
    have hgo2 : w.gameOver = true := by simpa using hgo
    split
    · split
      · split
        · intro hend
          exact absurd hend (by simp)
        · exact fun _ => ⟨rfl, rfl, rfl, rfl, rfl, rfl, rfl⟩
      · split
        · intro hend
          exact absurd hend (by simp)
        · exact fun _ => ⟨rfl, rfl, rfl, rfl, rfl, rfl, rfl⟩
    · split
      · exact fun _ => ⟨rfl, rfl, rfl, rfl, rfl, rfl, rfl⟩
      · exact fun _ => Game.Frozen.unchanged w

theorem frozen_foldl_playAgain (env : Env) (hands : List Prediction) (w : Game)
    (hend : (hands.foldl (fun acc (p : Prediction) =>
      checkPlayAgainButton env acc p.bbox) w).gameOver = true) :
    w.Frozen (hands.foldl (fun acc (p : Prediction) => checkPlayAgainButton env acc p.bbox) w) := by
  induction hands generalizing w with
  | nil => exact Game.Frozen.unchanged w
  | cons p ps ih =>
    rw [List.foldl_cons] at hend ⊢
    have h1 : (checkPlayAgainButton env w p.bbox).gameOver = true := by
      by_contra hne
      have hf : (checkPlayAgainButton env w p.bbox).gameOver = false := by simpa using hne
      rw [foldl_playAgain_playing env ps _ hf, hf] at hend
      exact Bool.false_ne_true hend
    exact (frozen_checkPlayAgainButton env w p.bbox h1).andThen (ih _ hend)

theorem frozen_drawGameOverScreen (w : Game) : w.Frozen (drawGameOverScreen w) := by
  obtain ⟨k, m, hkm⟩ := isShift_drawGameOverScreen w
  have hr : (drawGameOverScreen w).rand = w.rand := by
    unfold drawGameOverScreen
    dsimp only
    split <;> split <;> rfl
  rw [hkm] at hr ⊢
  exact ⟨rfl, rfl, rfl, rfl, rfl, rfl, hr⟩

end Restart

/-- C6: for every game-over state and hand box, when the `Date.now()` calls of
`checkPlayAgainButton` return `now`, the call ends the game-over phase exactly
when the hand box overlaps the Play-Again rectangle (160 x 50 at
`(width/2 - 80, height/2 + 40)`) and `now` minus the hold start (which is `now`
itself when no hold was active) is at least `5000`; the resulting state then has
`score = 0`, `missedBugs = 0`, no bugs, no splashes, `gameOver = false`,
`isHoldingRestart = false` and `restartHoldStart = 0`. -/
theorem restart_iff_hold_complete (env : Env) (w : Game) (hb : BBox) (now : ℚ)
    (hgo : w.gameOver = true) (h0 : w.clock 0 = now) (h1 : w.clock 1 = now) :
    ((checkPlayAgainButton env w hb).gameOver = false ↔
        ((hb.x < env.width / 2 - 80 + 160 ∧ hb.x + hb.width > env.width / 2 - 80 ∧
            hb.y < env.height / 2 + 40 + 50 ∧ hb.y + hb.height > env.height / 2 + 40) ∧
          now - (if w.isHoldingRestart then w.restartHoldStart else now) ≥ 5000)) ∧
      ((checkPlayAgainButton env w hb).gameOver = false →
        (checkPlayAgainButton env w hb).score = 0 ∧
        (checkPlayAgainButton env w hb).missedBugs = 0 ∧
        (checkPlayAgainButton env w hb).bugs = [] ∧
        (checkPlayAgainButton env w hb).splashes = [] ∧
        (checkPlayAgainButton env w hb).isHoldingRestart = false ∧
        (checkPlayAgainButton env w hb).restartHoldStart = 0) := by
  rw [← isOverButton_iff]
  by_cases hover : isOverButton env hb = true
  · by_cases hhold : w.isHoldingRestart = true
    · by_cases hel : restartHoldDuration ≤ w.clock 0 - w.restartHoldStart
      · have hel2 : (5000 : ℚ) ≤ now - w.restartHoldStart := by
          rw [← h0]; exact hel
        simp [checkPlayAgainButton, hgo, hover, hhold, hel, hel2]
      · have hel2 : ¬ (5000 : ℚ) ≤ now - w.restartHoldStart := by
          rw [← h0]; exact hel
        simp [checkPlayAgainButton, hgo, hover, hhold, hel, hel2, Game.tick]
    · have hhold2 : w.isHoldingRestart = false := by simpa using hhold
      have hel : ¬ restartHoldDuration ≤ w.clock 1 - w.clock 0 := by
        rw [h0, h1]
        norm_num [restartHoldDuration]
      simp [checkPlayAgainButton, hgo, hover, hhold2, hel, Game.tick]
  · have hover2 : isOverButton env hb = false := by simpa using hover
    by_cases hhold : w.isHoldingRestart = true
    · simp [checkPlayAgainButton, hgo, hover2, hhold]
    · have hhold2 : w.isHoldingRestart = false := by simpa using hhold
      simp [checkPlayAgainButton, hgo, hover2, hhold2]

/-- C6 at a concrete state: a hold started at `1000` completes at `6000`. -/
theorem restart_iff_hold_complete_demo :
    (heldState.gameOver = true ∧ heldState.clock 0 = 6000 ∧ heldState.clock 1 = 6000) ∧
      (checkPlayAgainButton demoEnv heldState buttonHand).gameOver = false ∧
      (checkPlayAgainButton demoEnv heldState buttonHand).score = 0 ∧
      (checkPlayAgainButton demoEnv heldState buttonHand).bugs = [] :=
  ⟨⟨rfl, rfl, rfl⟩,
    (restart_iff_hold_complete demoEnv heldState buttonHand 6000 rfl rfl rfl).1.2
      (by decide!),
    ((restart_iff_hold_complete demoEnv heldState buttonHand 6000 rfl rfl rfl).2
      (by decide!)).1,
    ((restart_iff_hold_complete demoEnv heldState buttonHand 6000 rfl rfl rfl).2
      (by decide!)).2.2.1⟩

/-- C7: a frame that starts with `gameOver = true` and does not complete a
restart (it ends with `gameOver = true`) leaves `score`, `missedBugs`, the bugs
collection (flags included), the splashes collection and the random stream
unchanged, whatever the detections; `currentHandBoxes` records the hand boxes of
the frame, and only `isHoldingRestart`, `restartHoldStart` and the clock may
differ otherwise. -/
theorem gameOver_frame_frozen (env : Env) (w : Game) (preds : List Prediction)
    (hgo : w.gameOver = true) (hend : (showPredictions env w preds).gameOver = true) :
    (showPredictions env w preds).score = w.score ∧
      (showPredictions env w preds).missedBugs = w.missedBugs ∧
      (showPredictions env w preds).bugs = w.bugs ∧
      (showPredictions env w preds).splashes = w.splashes ∧
      (showPredictions env w preds).gameOver = true ∧
      (showPredictions env w preds).rand = w.rand ∧
      (showPredictions env w preds).currentHandBoxes =
        (handPredictions preds).map (fun (pred : Prediction) => pred.bbox) := by
  have hs : showPredictions env w preds =
      (handPredictions preds).foldl
        (fun acc (p : Prediction) => checkPlayAgainButton env acc p.bbox)
        (drawGameOverScreen { w with currentHandBoxes :=
          (handPredictions preds).map (fun (pred : Prediction) => pred.bbox) }) := by
    unfold showPredictions
    simp [hgo]
  rw [hs] at hend ⊢
  obtain ⟨a1, a2, a3, a4, a5, a6, a7⟩ :=
    (frozen_drawGameOverScreen _).andThen (frozen_foldl_playAgain env _ _ hend)
  exact ⟨a1, a4, a2, a3, hend, a7, a6⟩

/-- C7 at a concrete state: a frame with a hand away from the button. -/
theorem gameOver_frame_frozen_demo :
    (heldState.gameOver = true ∧
        (showPredictions demoEnv heldState [cornerHand]).gameOver = true) ∧
      (showPredictions demoEnv heldState [cornerHand]).score = 2 ∧
      (showPredictions demoEnv heldState [cornerHand]).missedBugs = 3 ∧
      (showPredictions demoEnv heldState [cornerHand]).bugs = heldState.bugs ∧
      (showPredictions demoEnv heldState [cornerHand]).splashes = [] :=
  ⟨⟨rfl, by decide!⟩,
    (gameOver_frame_frozen demoEnv heldState [cornerHand] rfl (by decide!)).1,
    (gameOver_frame_frozen demoEnv heldState [cornerHand] rfl (by decide!)).2.1,
    (gameOver_frame_frozen demoEnv heldState [cornerHand] rfl (by decide!)).2.2.1,
    (gameOver_frame_frozen demoEnv heldState [cornerHand] rfl (by decide!)).2.2.2.1⟩

/-- C10: in a game-over state with an active hold, a hand box that does not
overlap the Play-Again button makes `checkPlayAgainButton` set
`isHoldingRestart = false` and `restartHoldStart = 0` and change nothing else.
The old start time is gone: at any later clock, an overlapping hand box seen at
reading `t = clock 0` restarts the game only if the next reading is at least
`t + 5000`, and otherwise starts a new hold with start time `t`; a further call
restarts that hold only at a reading of at least `t + 5000`. -/
theorem hold_cancelled_when_away (env : Env) (w : Game) (hb : BBox)
    (hgo : w.gameOver = true) (hhold : w.isHoldingRestart = true)
    (haway : isOverButton env hb = false) :
    checkPlayAgainButton env w hb = { w with isHoldingRestart := false, restartHoldStart := 0 } ∧
      ∀ (clock : Nat → ℚ) (hb2 : BBox), isOverButton env hb2 = true →
        ((checkPlayAgainButton env
            { checkPlayAgainButton env w hb with clock := clock } hb2).gameOver = false →
          clock 0 + 5000 ≤ clock 1) ∧
        (clock 1 < clock 0 + 5000 →
          (checkPlayAgainButton env
            { checkPlayAgainButton env w hb with clock := clock } hb2).gameOver = true ∧
          (checkPlayAgainButton env
            { checkPlayAgainButton env w hb with clock := clock } hb2).isHoldingRestart = true ∧
          (checkPlayAgainButton env
            { checkPlayAgainButton env w hb with clock := clock } hb2).restartHoldStart
              = clock 0 ∧
          ∀ (clock3 : Nat → ℚ) (hb3 : BBox),
            (checkPlayAgainButton env
              { checkPlayAgainButton env
                  { checkPlayAgainButton env w hb with clock := clock } hb2
                with clock := clock3 } hb3).gameOver = false →
            clock 0 + 5000 ≤ clock3 0) := by
  have hc : checkPlayAgainButton env w hb =
      { w with isHoldingRestart := false, restartHoldStart := 0 } := by
    simp [checkPlayAgainButton, hgo, hhold, haway]
  refine ⟨hc, fun clock hb2 hover => ?_⟩
  rw [hc]
  by_cases hel : restartHoldDuration ≤ clock 1 - clock 0
  · have hel2 : clock 0 + 5000 ≤ clock 1 := by
      unfold restartHoldDuration at hel
      linarith
    refine ⟨fun _ => hel2, fun hlt => ?_⟩
    exact absurd hel2 (not_le.2 hlt)
  · have hel2 : ¬ clock 0 + 5000 ≤ clock 1 := by
      unfold restartHoldDuration at hel
      intro hle
      exact hel (by linarith)
    have hv : checkPlayAgainButton env
        { w with isHoldingRestart := false, restartHoldStart := 0, clock := clock } hb2 =
        { w with isHoldingRestart := true, restartHoldStart := clock 0,
                 clock := fun n => clock (n + 1 + 1) } := by
      simp [checkPlayAgainButton, hgo, hover, hel, Game.tick]
    rw [hv]
    refine ⟨fun hf => ?_, fun _ => ⟨hgo, rfl, rfl, fun clock3 hb3 hf => ?_⟩⟩
    · rw [hgo] at hf
      exact absurd hf (by simp)
    · by_cases hover3 : isOverButton env hb3 = true
      · by_cases hel3 : restartHoldDuration ≤ clock3 0 - clock 0
        · unfold restartHoldDuration at hel3
          linarith
        · simp [checkPlayAgainButton, hgo, hover3, hel3, Game.tick] at hf
      · have hover4 : isOverButton env hb3 = false := by simpa using hover3
        simp [checkPlayAgainButton, hgo, hover4] at hf

/-- C10 at a concrete state: a hold that started at `1000` is cancelled by a
hand away from the button. -/
theorem hold_cancelled_when_away_demo :
    (heldState.gameOver = true ∧ heldState.isHoldingRestart = true ∧
        isOverButton demoEnv awayHand = false) ∧
      (checkPlayAgainButton demoEnv heldState awayHand).isHoldingRestart = false ∧
      (checkPlayAgainButton demoEnv heldState awayHand).restartHoldStart = 0 ∧
      (checkPlayAgainButton demoEnv heldState awayHand).score = 2 :=
  ⟨⟨rfl, rfl, by decide!⟩,
    congrArg Game.isHoldingRestart
      (hold_cancelled_when_away demoEnv heldState awayHand rfl rfl (by decide!)).1,
    congrArg Game.restartHoldStart
      (hold_cancelled_when_away demoEnv heldState awayHand rfl rfl (by decide!)).1,
    congrArg Game.score
      (hold_cancelled_when_away demoEnv heldState awayHand rfl rfl (by decide!)).1⟩


/-! ## C9: catching -/

section Catch

theorem checkCollision_eq (b : Bug) (hb : BBox) :
    b.checkCollision hb = (!b.caught && centreInBox b hb) := by
  unfold Bug.checkCollision centreInBox
  cases b.caught <;> simp [ge_iff_le]

theorem length_newParticles (x y : ℚ) (n : Nat) (w : Game) :
    (newParticles x y n w).1.length = n := by
  induction n generalizing w with
  | zero => rfl
  | succ n ih =>
    show ((newParticle x y w).1 :: (newParticles x y n (newParticle x y w).2).1).length = n + 1
    rw [List.length_cons, ih]

theorem Splash_new_particles (x y : ℚ) (w : Game) :
    (Splash.new x y w).1.particles.length = 8 :=
  length_newParticles x y 8 w.tick

theorem Splash_new_pos (x y : ℚ) (w : Game) : (Splash.new x y w).1.pos = (x, y) := rfl

theorem collideBug_hit (hb : BBox) (w : Game) (b : Bug) (h : b.checkCollision hb = true) :
    (collideBug hb w b).1.score = w.score + 1 ∧
      (collideBug hb w b).1.splashes =
        w.splashes ++ [(Splash.new b.x b.y { w with score := w.score + 1 }).1] := by
  obtain ⟨k, m, hkm⟩ := isShift_Splash_new b.x b.y { w with score := w.score + 1 }
  unfold collideBug
  rw [if_pos h]
  dsimp only
  rw [hkm]
  exact ⟨rfl, rfl⟩

theorem collideBug_miss (hb : BBox) (w : Game) (b : Bug) (h : b.checkCollision hb = false) :
    (collideBug hb w b).1 = w := by
  unfold collideBug
  rw [if_neg (by simp [h])]

theorem filter_collision_pos (hb : BBox) (b : Bug) (bs : List Bug)
    (h : b.checkCollision hb = true) :
    (b :: bs).filter (fun c => c.checkCollision hb) =
      b :: bs.filter (fun c => c.checkCollision hb) := by
  simp [List.filter_cons, h]

theorem filter_collision_neg (hb : BBox) (b : Bug) (bs : List Bug)
    (h : b.checkCollision hb = false) :
    (b :: bs).filter (fun c => c.checkCollision hb) = bs.filter (fun c => c.checkCollision hb) := by
  simp [List.filter_cons, h]

theorem collideLoop_fst (hb : BBox) (w : Game) (bs : List Bug) :
    (collideLoop hb w bs).1.score =
        w.score + ((bs.filter (fun b => b.checkCollision hb)).length : Int) ∧
      ∃ new : List Splash, (collideLoop hb w bs).1.splashes = w.splashes ++ new ∧
        new.map Splash.pos = (bs.filter (fun b => b.checkCollision hb)).map Bug.pos ∧
        ∀ s ∈ new, s.particles.length = 8 := by
  induction bs generalizing w with
  | nil => exact ⟨by simp [collideLoop], [], by simp [collideLoop], rfl, by simp⟩
  | cons b bs ih =>
    obtain ⟨ih1, new, ih2, ih3, ih4⟩ := ih (collideBug hb w b).1
    have hstep : (collideLoop hb w (b :: bs)).1 = (collideLoop hb (collideBug hb w b).1 bs).1 :=
      rfl
    rw [hstep]
    by_cases hc : b.checkCollision hb = true
    · obtain ⟨c1, c2⟩ := collideBug_hit hb w b hc
      rw [filter_collision_pos hb b bs hc]
      refine ⟨?_, (Splash.new b.x b.y { w with score := w.score + 1 }).1 :: new, ?_, ?_, ?_⟩
      · rw [ih1, c1, List.length_cons]
        push_cast
        ring
      · rw [ih2, c2, List.append_assoc, List.singleton_append]
      · rw [List.map_cons, List.map_cons, ih3, Splash_new_pos]
        rfl
      · intro s hs
        rcases List.mem_cons.1 hs with rfl | hs
        · exact Splash_new_particles _ _ _
        · exact ih4 s hs
    · have hc2 : b.checkCollision hb = false := by simpa using hc
      rw [filter_collision_neg hb b bs hc2]
      rw [collideBug_miss hb w b hc2] at ih1 ih2 ⊢
      exact ⟨ih1, new, ih2, ih3, ih4⟩

theorem markCaught_cons (h : BBox) (hs : List BBox) (b : Bug) :
    markCaught hs (b.squash h) = markCaught (h :: hs) b := by
  unfold markCaught Bug.squash hitBy
  rw [checkCollision_eq]
  cases hcaught : b.caught <;> cases hin : centreInBox b h <;>
    simp [hcaught, hin, List.any_cons]

theorem hitBy_cons (h : BBox) (hs : List BBox) (b : Bug) :
    hitBy (h :: hs) b = (b.checkCollision h || hitBy hs (b.squash h)) := by
  unfold Bug.squash hitBy
  rw [checkCollision_eq]
  cases hcaught : b.caught <;> cases hin : centreInBox b h <;>
    simp [hcaught, hin, List.any_cons]

theorem hitBy_squash_excl (h : BBox) (hs : List BBox) (b : Bug)
    (hc : b.checkCollision h = true) : hitBy hs (b.squash h) = false := by
  unfold Bug.squash hitBy
  rw [if_pos hc]
  simp

theorem squash_pos (h : BBox) (b : Bug) : (b.squash h).pos = b.pos := by
  unfold Bug.squash
  split <;> rfl

theorem perm_hits (h : BBox) (hs : List BBox) (bs : List Bug) :
    ((bs.filter (fun b => b.checkCollision h)).map Bug.pos ++
        ((bs.map (Bug.squash h)).filter (hitBy hs)).map Bug.pos).Perm
      ((bs.filter (hitBy (h :: hs))).map Bug.pos) := by
  induction bs with
  | nil => exact List.Perm.refl _
  | cons b bs ih =>
    rw [List.map_cons]
    by_cases hc : b.checkCollision h = true
    · have h1 : hitBy (h :: hs) b = true := by rw [hitBy_cons, hc]; rfl
      have h2 : ¬ hitBy hs (b.squash h) = true := by
        rw [hitBy_squash_excl h hs b hc]; simp
      rw [filter_collision_pos h b bs hc, List.filter_cons_of_pos h1, List.map_cons,
        List.filter_cons_of_neg h2, List.map_cons, List.cons_append]
      exact List.Perm.cons _ ih
    · have hc2 : b.checkCollision h = false := by simpa using hc
      by_cases hh : hitBy hs (b.squash h) = true
      · have h1 : hitBy (h :: hs) b = true := by rw [hitBy_cons, hc2, hh]; rfl
        rw [filter_collision_neg h b bs hc2, List.filter_cons_of_pos h1, List.map_cons,
          List.filter_cons_of_pos hh, List.map_cons, squash_pos]
        exact List.perm_middle.trans (List.Perm.cons _ ih)
      · have hh2 : hitBy hs (b.squash h) = false := by simpa using hh
        have h1 : ¬ hitBy (h :: hs) b = true := by rw [hitBy_cons, hc2, hh2]; simp
        rw [filter_collision_neg h b bs hc2, List.filter_cons_of_neg h1,
          List.filter_cons_of_neg hh]
        exact ih

theorem foldl_collisions_spec (hands : List BBox) (w : Game) :
    (hands.foldl checkBugCollisions w).bugs = w.bugs.map (markCaught hands) ∧
      (hands.foldl checkBugCollisions w).score =
        w.score + ((w.bugs.filter (hitBy hands)).length : Int) ∧
      ∃ new : List Splash, (hands.foldl checkBugCollisions w).splashes = w.splashes ++ new ∧
        (new.map Splash.pos).Perm ((w.bugs.filter (hitBy hands)).map Bug.pos) ∧
        ∀ s ∈ new, s.particles.length = 8 := by
  induction hands generalizing w with
  | nil =>
    refine ⟨?_, ?_, [], ?_, ?_, ?_⟩
    · have hid : markCaught [] = id := by
        funext b
        simp [markCaught, hitBy]
      rw [hid, List.map_id]
      rfl
    · simp [hitBy]
    · simp
    · simp [hitBy]
    · simp
  | cons h hs ih =>
    obtain ⟨i1, i2, new2, i3, i4, i5⟩ := ih (checkBugCollisions w h)
    obtain ⟨c1, new1, c2, c3, c4⟩ := collideLoop_fst h w w.bugs
    have hb : (checkBugCollisions w h).bugs = w.bugs.map (Bug.squash h) :=
      checkBugCollisions_bugs w h
    have hsc : (checkBugCollisions w h).score =
        w.score + ((w.bugs.filter (fun b => b.checkCollision h)).length : Int) := c1
    have hsp : (checkBugCollisions w h).splashes = w.splashes ++ new1 := c2
    have hperm := perm_hits h hs w.bugs
    rw [List.foldl_cons]
    refine ⟨?_, ?_, new1 ++ new2, ?_, ?_, ?_⟩
    · rw [i1, hb, List.map_map]
      exact List.map_congr_left (fun b _ => markCaught_cons h hs b)
    · rw [i2, hsc, hb]
      have hlen := hperm.length_eq
      simp only [List.length_append, List.length_map] at hlen
      rw [← hlen]
      push_cast
      ring
    · rw [i3, hsp, List.append_assoc]
    · rw [List.map_append, c3]
      rw [hb] at i4
      exact (List.Perm.append_left _ i4).trans hperm
    · intro s hs2
      rcases List.mem_append.1 hs2 with h1 | h1
      · exact c4 s h1
      · exact i5 s h1

end Catch

/-- C9: when `checkBugCollisions` is called once per hand box, in order, on any
state, `score` increases by exactly `m` and exactly `m` splashes are appended,
where `m` is the number of bugs that were not yet caught and whose centre lies
inside at least one hand box (bounds inclusive): a bug covered by several hand
boxes is counted once.  Each such bug ends with `caught = true`, every other
bug is unchanged, every new splash has exactly 8 particles, and the positions
of the new splashes are, up to order, the positions of the bugs caught. -/
theorem collisions_count_each_bug_once (w : Game) (hands : List BBox) :
    (hands.foldl checkBugCollisions w).score =
        w.score + ((w.bugs.filter (hitBy hands)).length : Int) ∧
      (∃ new : List Splash,
        (hands.foldl checkBugCollisions w).splashes = w.splashes ++ new ∧
        new.length = (w.bugs.filter (hitBy hands)).length ∧
        (∀ s ∈ new, s.particles.length = 8) ∧
        (new.map Splash.pos).Perm ((w.bugs.filter (hitBy hands)).map Bug.pos)) ∧
      (hands.foldl checkBugCollisions w).bugs =
        w.bugs.map (fun b => if hitBy hands b then { b with caught := true } else b) := by
  obtain ⟨h1, h2, new, h3, h4, h5⟩ := foldl_collisions_spec hands w
  refine ⟨h2, ⟨new, h3, ?_, h5, h4⟩, h1⟩
  have := h4.length_eq
  simpa using this

/-! ## C8: expiry -/

section Expiry

theorem spawnStep_score (env : Env) (w : Game) : (spawnStep env w).score = w.score := by
  unfold spawnStep
  split
  · exact ((w.isShift_roll).seq (isShift_Bug_new env w.roll)).score_eq
  · rfl

theorem expireBug_score_nonneg (w : Game) (b : Bug) (hs : 0 ≤ w.score) :
    0 ≤ (expireBug w b).1.score := by
  unfold expireBug
  dsimp only [Bug.isExpired]
  split
  · split <;> exact le_max_left _ _
  · exact hs

theorem expireBug_kept (w : Game) (b : Bug)
    (h : (b.expiredAt (w.clock 0) && !b.caught && !b.processed) = false) :
    (expireBug w b).1 = w.tick := by
  unfold expireBug
  dsimp only [Bug.isExpired]
  rw [if_neg (by simp [h])]

theorem expireBug_escaped (w : Game) (b : Bug)
    (h : (b.expiredAt (w.clock 0) && !b.caught && !b.processed) = true) :
    (expireBug w b).1.score = max 0 (w.score - 1) ∧
      (expireBug w b).1.missedBugs = w.missedBugs + 1 := by
  unfold expireBug
  dsimp only [Bug.isExpired]
  rw [if_pos h]
  dsimp only
  split <;> exact ⟨rfl, rfl⟩

theorem max_zero_pred_sub (s : Int) (k : Nat) (hs : 0 ≤ s) :
    max 0 (max 0 (s - 1) - (k : Int)) = max 0 (s - ((k + 1 : Nat) : Int)) := by
  push_cast
  rcases le_or_lt 1 s with h | h
  · rw [max_eq_right (by omega : (0 : Int) ≤ s - 1)]
    congr 1
    ring
  · have h0 : s = 0 := by omega
    subst h0
    rw [max_eq_left (by omega : (0 : Int) - 1 ≤ 0), max_eq_left (by omega : (0 : Int) - k ≤ 0),
      max_eq_left (by omega : (0 : Int) - ((k : Int) + 1) ≤ 0)]

theorem expireLoop_const (now : ℚ) (bs : List Bug) (w : Game)
    (hc : ∀ i, i < bs.length → w.clock i = now)
    (hbs : ∀ b ∈ bs, b.processed = false) (hs : 0 ≤ w.score) :
    (expireLoop w bs).2 = bs.map (fun b => b.markEscaped now) ∧
      (expireLoop w bs).1.missedBugs =
        w.missedBugs + ((bs.countP (escapesAt now) : Nat) : Int) ∧
      (expireLoop w bs).1.score =
        max 0 (w.score - ((bs.countP (escapesAt now) : Nat) : Int)) := by
  induction bs generalizing w with
  | nil =>
    refine ⟨rfl, ?_, ?_⟩
    · simp [expireLoop]
    · simp [expireLoop, hs]
  | cons b bs ih =>
    have hstep1 : (expireLoop w (b :: bs)).1 = (expireLoop (expireBug w b).1 bs).1 := rfl
    have hstep2 : (expireLoop w (b :: bs)).2 =
        (expireBug w b).2 :: (expireLoop (expireBug w b).1 bs).2 := rfl
    have hc0 : w.clock 0 = now := hc 0 (by simp)
    have hc1 : ∀ i, i < bs.length → (expireBug w b).1.clock i = now := fun i hi => by
      rw [expireBug_clock]
      exact hc _ (by simp only [List.length_cons]; omega)
    have hs1 : 0 ≤ (expireBug w b).1.score := expireBug_score_nonneg w b hs
    obtain ⟨i1, i2, i3⟩ := ih (expireBug w b).1 hc1
      (fun c hcm => hbs c (List.mem_cons_of_mem _ hcm)) hs1
    have hp : b.processed = false := hbs b (List.mem_cons_self _ _)
    rw [hstep1, hstep2, i1, i2, i3, expireBug_snd, hc0, List.map_cons]
    refine ⟨rfl, ?_, ?_⟩
    · by_cases hcond : escapesAt now b = true
      · have hcond2 : (b.expiredAt (w.clock 0) && !b.caught && !b.processed) = true := by
          rw [hc0, hp]
          unfold escapesAt at hcond
          rw [hcond]; rfl
        rw [(expireBug_escaped w b hcond2).2, List.countP_cons_of_pos _ _ hcond]
        push_cast
        ring
      · have hcond2 : (b.expiredAt (w.clock 0) && !b.caught && !b.processed) = false := by
          rw [hc0, hp]
          unfold escapesAt at hcond
          simpa using hcond
        rw [expireBug_kept w b hcond2, List.countP_cons_of_neg _ _ hcond]
        rfl
    · by_cases hcond : escapesAt now b = true
      · have hcond2 : (b.expiredAt (w.clock 0) && !b.caught && !b.processed) = true := by
          rw [hc0, hp]
          unfold escapesAt at hcond
          rw [hcond]; rfl
        rw [(expireBug_escaped w b hcond2).1, List.countP_cons_of_pos _ _ hcond]
        exact max_zero_pred_sub w.score _ hs
      · have hcond2 : (b.expiredAt (w.clock 0) && !b.caught && !b.processed) = false := by
          rw [hc0, hp]
          unfold escapesAt at hcond
          simpa using hcond
        rw [expireBug_kept w b hcond2, List.countP_cons_of_neg _ _ hcond]
        rfl

theorem expireLoop_clock (w : Game) (bs : List Bug) (n : Nat) :
    (expireLoop w bs).1.clock n = w.clock (n + bs.length) := by
  induction bs generalizing w n with
  | nil => rfl
  | cons b bs ih =>
    show (expireLoop (expireBug w b).1 bs).1.clock n = _
    rw [ih, expireBug_clock, List.length_cons, Nat.add_assoc]

theorem keepLoop_const (now : ℚ) (bs : List Bug) (w : Game)
    (hc : ∀ i, i < bs.length → w.clock i = now) :
    (keepLoop w bs).2 = bs.filter (survivesAt now) := by
  induction bs generalizing w with
  | nil => rfl
  | cons b bs ih =>
    have hstep : (keepLoop w (b :: bs)).2 =
        if survivesAt (w.clock 0) b = true
        then b :: (keepLoop w.tick bs).2 else (keepLoop w.tick bs).2 := rfl
    have hc1 : ∀ i, i < bs.length → w.tick.clock i = now := fun i hi =>
      hc (i + 1) (by simp only [List.length_cons]; omega)
    rw [hstep, ih w.tick hc1, hc 0 (by simp), List.filter_cons]

theorem filter_kept_map_markEscaped (now : ℚ) (bs : List Bug) :
    (bs.map (fun b => b.markEscaped now)).filter (survivesAt now) =
      bs.filter (survivesAt now) := by
  induction bs with
  | nil => rfl
  | cons b bs ih =>
    have hsame : survivesAt now (b.markEscaped now) = survivesAt now b := by
      unfold survivesAt
      rw [Bug.markEscaped_expiredAt, Bug.markEscaped_caught]
    rw [List.map_cons, List.filter_cons, List.filter_cons, ih, hsame]
    by_cases hk : survivesAt now b = true
    · rw [if_pos hk, if_pos hk]
      have hne : b.expiredAt now = false := by
        unfold survivesAt at hk
        simp only [Bool.and_eq_true, Bool.not_eq_true'] at hk
        exact hk.1
      have hid : b.markEscaped now = b := by
        unfold Bug.markEscaped
        rw [hne]
        rfl
      rw [hid]
    · rw [if_neg hk, if_neg hk]

theorem sampleCoord_clock (a b : ℚ) (w : Game) : (sampleCoord a b w).2.clock = w.clock := by
  unfold sampleCoord
  dsimp only
  split <;> rfl

theorem placeBug_clock (env : Env) (n : Nat) (x y : ℚ) (w : Game) :
    (placeBug env n x y w).2.clock = w.clock := by
  induction n generalizing x y w with
  | zero => rfl
  | succ n ih =>
    unfold placeBug
    dsimp only
    split
    · rw [sampleCoord_clock, sampleCoord_clock]
    · rw [ih, sampleCoord_clock, sampleCoord_clock]

theorem Bug_new_createdAt (env : Env) (w : Game) : (Bug.new env w).1.createdAt = w.clock 0 := by
  show (placeBug env 50 0 0 w).2.clock 0 = _
  rw [placeBug_clock]

theorem Bug_new_clock (env : Env) (w : Game) (n : Nat) :
    (Bug.new env w).2.clock n = w.clock (n + 1) := by
  show (placeBug env 50 0 0 w).2.clock (n + 1) = _
  rw [placeBug_clock]

theorem Bug_new_lifetime (env : Env) (w : Game) :
    ∃ m, (Bug.new env w).1.lifetime = w.rand m * 3700 + 300 := by
  obtain ⟨k, m, hkm⟩ := isShift_placeBug env 50 0 0 w
  refine ⟨m, ?_⟩
  show (placeBug env 50 0 0 w).2.rand 0 * 3700 + 300 = _
  rw [hkm]
  show w.rand (0 + m) * 3700 + 300 = _
  rw [Nat.zero_add]

theorem Bug_new_fresh (env : Env) (w : Game) (now : ℚ) (hc : w.clock 0 = now)
    (hr : ∀ i, 0 ≤ w.rand i) :
    (Bug.new env w).1.expiredAt now = false ∧ (Bug.new env w).1.caught = false ∧
      (Bug.new env w).1.processed = false := by
  obtain ⟨m, h2⟩ := Bug_new_lifetime env w
  refine ⟨?_, rfl, rfl⟩
  unfold Bug.expiredAt
  rw [Bug_new_createdAt, h2, hc]
  have := hr m
  simp only [decide_eq_false_iff_not, not_lt, gt_iff_lt]
  linarith

theorem spawnStep_clock (env : Env) (w : Game) (n : Nat) :
    (spawnStep env w).clock n = w.clock (n + (if w.rand 0 < 0.008 then 1 else 0)) := by
  unfold spawnStep
  split
  · show (Bug.new env w.roll).2.clock n = _
    rw [Bug_new_clock]
    rfl
  · rfl

theorem updateGame_const (env : Env) (w : Game) (now : ℚ) (hplay : w.gameOver = false)
    (hc : ∀ i, i < 2 * w.bugs.length + 3 → w.clock i = now) (hr : ∀ i, 0 ≤ w.rand i)
    (hp : w.NoProcessed) (hs : 0 ≤ w.score) :
    (updateGame env w).missedBugs =
        w.missedBugs + ((w.bugs.countP (escapesAt now) : Nat) : Int) ∧
      (updateGame env w).score =
        max 0 (w.score - ((w.bugs.countP (escapesAt now) : Nat) : Int)) ∧
      (updateGame env w).bugs =
        w.bugs.filter (survivesAt now) ++
          (if w.rand 0 < 0.008 then [(Bug.new env w.roll).1] else []) := by
  have hu : updateGame env w = removeStep (expireStep (spawnStep env w)) := by
    unfold updateGame
    rw [if_neg (by simp [hplay])]
  have hlen : (spawnStep env w).bugs.length =
      w.bugs.length + (if w.rand 0 < 0.008 then 1 else 0) := by
    rw [spawnStep_bugs, List.length_append]
    split <;> rfl
  have hsb : (if w.rand 0 < 0.008 then 1 else 0 : Nat) ≤ 1 := by
    split <;> omega
  have hcs : ∀ i, i < (spawnStep env w).bugs.length → (spawnStep env w).clock i = now := by
    intro i hi
    rw [spawnStep_clock]
    rw [hlen] at hi
    refine hc _ ?_
    omega
  have hsm : (spawnStep env w).missedBugs = w.missedBugs := by
    unfold spawnStep
    split
    · exact ((w.isShift_roll).seq (isShift_Bug_new env w.roll)).missedBugs_eq
    · rfl
  obtain ⟨e1, e2, e3⟩ := expireLoop_const now (spawnStep env w).bugs (spawnStep env w) hcs
    (noProcessed_spawnStep env w hp) (by rw [spawnStep_score]; exact hs)
  have hbe : (expireStep (spawnStep env w)).bugs =
      (spawnStep env w).bugs.map (fun b => b.markEscaped now) := e1
  have hce : ∀ i, i < (expireStep (spawnStep env w)).bugs.length →
      (expireStep (spawnStep env w)).clock i = now := by
    intro i hi
    rw [hbe, List.length_map, hlen] at hi
    show (expireLoop (spawnStep env w) (spawnStep env w).bugs).1.clock i = now
    rw [expireLoop_clock, spawnStep_clock, hlen]
    refine hc _ ?_
    omega
  have hk := keepLoop_const now (expireStep (spawnStep env w)).bugs
    (expireStep (spawnStep env w)) hce
  have hfresh := Bug_new_fresh env w.roll now (hc 0 (by omega)) (fun i => hr (i + 1))
  have hcount : (spawnStep env w).bugs.countP (escapesAt now) =
      w.bugs.countP (escapesAt now) := by
    rw [spawnStep_bugs, List.countP_append]
    split
    · simp [List.countP_cons, escapesAt, hfresh.1]
    · simp
  have hfilter : (spawnStep env w).bugs.filter (survivesAt now) =
      w.bugs.filter (survivesAt now) ++
        (if w.rand 0 < 0.008 then [(Bug.new env w.roll).1] else []) := by
    rw [spawnStep_bugs, List.filter_append]
    split
    · simp [List.filter_cons, survivesAt, hfresh.1, hfresh.2.1]
    · simp
  rw [hu]
  refine ⟨?_, ?_, ?_⟩
  · show (keepLoop (expireStep (spawnStep env w)) _).1.missedBugs = _
    rw [(isShift_keepLoop _ _).missedBugs_eq]
    show (expireLoop (spawnStep env w) (spawnStep env w).bugs).1.missedBugs = _
    rw [e2, hsm, hcount]
  · show (keepLoop (expireStep (spawnStep env w)) _).1.score = _
    rw [(isShift_keepLoop _ _).score_eq]
    show (expireLoop (spawnStep env w) (spawnStep env w).bugs).1.score = _
    rw [e3, spawnStep_score, hcount]
  · show (keepLoop (expireStep (spawnStep env w)) (expireStep (spawnStep env w)).bugs).2 = _
    rw [hk, hbe, filter_kept_map_markEscaped, hfilter]

theorem monotone_expiryClock : Monotone expiryClock := by
  intro a b hab
  unfold expiryClock
  split <;> split <;> first | omega | norm_num

theorem expiryRun_clock (i : Nat) :
    (run demoEnv (Game.initial expiryClock expiryRand) [[]]).clock i = 1001 := by
  have h : (run demoEnv (Game.initial expiryClock expiryRand) [[]]).clock =
      fun n => expiryClock (n + 1 + 1 + 1) := by
    with_unfolding_all rfl
  rw [h]
  simp [expiryClock]

theorem expiryRun_rand (i : Nat) :
    0 ≤ (run demoEnv (Game.initial expiryClock expiryRand) [[]]).rand i := by
  have h : (run demoEnv (Game.initial expiryClock expiryRand) [[]]).rand =
      fun n => expiryRand (n + 1 + 1 + 1 + 1) := by
    with_unfolding_all rfl
  rw [h]
  show 0 ≤ expiryRand (i + 1 + 1 + 1 + 1)
  unfold expiryRand
  split
  · norm_num
  · split <;> norm_num

end Expiry

/-- The expiry step on the states of a run under a non-decreasing clock: there
no bug of the collection is already processed and `score` is not negative, so
with the `Date.now()` calls of `updateGame` returning `now` and `Math.random()`
not negative, `updateGame` charges every bug that is expired
(`now - createdAt > lifetime`) and not caught: with `k` such bugs, `missedBugs`
grows by `k`, `score` becomes `max 0 (score - k)`, and the collection becomes
the old bugs that are neither expired nor caught, in their order, followed by
the newly spawned bug if one was spawned. -/
theorem expiry_penalises_each_expired_bug (env : Env) (clock rand : Nat → ℚ)
    (frames : List (List Prediction)) (boxes : List BBox) (now : ℚ)
    (hmono : Monotone clock)
    (hplay : (run env (Game.initial clock rand) frames).gameOver = false)
    (hnow : ∀ i, i < 2 * (run env (Game.initial clock rand) frames).bugs.length + 3 →
      (run env (Game.initial clock rand) frames).clock i = now)
    (hrand : ∀ i, 0 ≤ (run env (Game.initial clock rand) frames).rand i) :
    let w : Game := { run env (Game.initial clock rand) frames with currentHandBoxes := boxes }
    (updateGame env w).missedBugs =
        w.missedBugs + ((w.bugs.countP (escapesAt now) : Nat) : Int) ∧
      (updateGame env w).score =
        max 0 (w.score - ((w.bugs.countP (escapesAt now) : Nat) : Int)) ∧
      (updateGame env w).bugs =
        w.bugs.filter (survivesAt now) ++
          (if w.rand 0 < 0.008 then [(Bug.new env w.roll).1] else []) := by
  intro w
  exact updateGame_const env w now hplay hnow hrand
    (noProcessed_run env frames _ hmono (noProcessed_initial clock rand))
    (sound_run env frames _ (Game.sound_initial clock rand)).1

/-- The expiry step of a run under a non-decreasing clock, at the run that
spawns one bug with lifetime `1000` at `t = 0` and reaches `t = 1001` without a
catch: the bug is penalised once and removed. -/
theorem expiry_penalises_each_expired_bug_demo :
    (Monotone expiryClock ∧
        (run demoEnv (Game.initial expiryClock expiryRand) [[]]).gameOver = false ∧
        (∀ i, i < 2 * (run demoEnv (Game.initial expiryClock expiryRand) [[]]).bugs.length + 3 →
          (run demoEnv (Game.initial expiryClock expiryRand) [[]]).clock i = 1001) ∧
        (∀ i, 0 ≤ (run demoEnv (Game.initial expiryClock expiryRand) [[]]).rand i)) ∧
      (let w : Game :=
          { run demoEnv (Game.initial expiryClock expiryRand) [[]] with currentHandBoxes := [] };
        (updateGame demoEnv w).missedBugs =
            w.missedBugs + ((w.bugs.countP (escapesAt 1001) : Nat) : Int) ∧
          (updateGame demoEnv w).score =
            max 0 (w.score - ((w.bugs.countP (escapesAt 1001) : Nat) : Int)) ∧
          (updateGame demoEnv w).bugs =
            w.bugs.filter (survivesAt 1001) ++
              (if w.rand 0 < 0.008 then [(Bug.new demoEnv w.roll).1] else [])) ∧
      (run demoEnv (Game.initial expiryClock expiryRand) [[]]).bugs =
        [{ x := 30, y := 30, radius := 25, lifetime := 1000, createdAt := 0, caught := false,
           wiggle := 3 / 10, processed := false }] ∧
      (updateGame demoEnv (run demoEnv (Game.initial expiryClock expiryRand) [[]])).missedBugs
        = 1 ∧
      (updateGame demoEnv (run demoEnv (Game.initial expiryClock expiryRand) [[]])).score = 0 ∧
      (updateGame demoEnv (run demoEnv (Game.initial expiryClock expiryRand) [[]])).bugs = [] :=
  ⟨⟨monotone_expiryClock, by decide!, fun i _ => expiryRun_clock i, expiryRun_rand⟩,
    expiry_penalises_each_expired_bug demoEnv expiryClock expiryRand [[]] [] 1001
      monotone_expiryClock (by decide!) (fun i _ => expiryRun_clock i) expiryRun_rand,
    by decide!, by decide!, by decide!, by decide!⟩

/-! ## C5: score against catches and escapes -/

section Score

theorem updateSplashes_score (w : Game) : (updateSplashes w).score = w.score :=
  ((isShift_updateLoop w w.splashes).seq (isShift_keepSplashLoop _ _)).score_eq

theorem removeStep_score (w : Game) : (removeStep w).score = w.score :=
  (isShift_keepLoop w w.bugs).score_eq

theorem expireBug_score_bounds (w : Game) (b : Bug) (hs : 0 ≤ w.score) :
    ∃ j : Nat, processedCount [(expireBug w b).2] = processedCount [b] + j ∧
      w.score - (j : Int) ≤ (expireBug w b).1.score ∧ (expireBug w b).1.score ≤ w.score := by
  by_cases hcond : (b.expiredAt (w.clock 0) && !b.caught && !b.processed) = true
  · have hp : b.processed = false := by
      simp only [Bool.and_eq_true, Bool.not_eq_true'] at hcond
      exact hcond.2
    refine ⟨1, ?_, ?_, ?_⟩
    · rw [expireBug_snd]
      unfold Bug.markEscaped
      rw [if_pos hcond]
      simp [processedCount, hp]
    · rw [(expireBug_escaped w b hcond).1]
      push_cast
      exact le_max_right _ _
    · rw [(expireBug_escaped w b hcond).1]
      exact max_le hs (by omega)
  · have hcond2 : (b.expiredAt (w.clock 0) && !b.caught && !b.processed) = false := by
      simpa using hcond
    refine ⟨0, ?_, ?_, ?_⟩
    · rw [expireBug_snd]
      unfold Bug.markEscaped
      rw [if_neg hcond]
      rfl
    · rw [expireBug_kept w b hcond2]
      show w.score - 0 ≤ w.score
      omega
    · rw [expireBug_kept w b hcond2]
      exact le_refl _

theorem processedCount_cons (b : Bug) (bs : List Bug) :
    processedCount (b :: bs) = processedCount [b] + processedCount bs := by
  unfold processedCount
  rw [List.countP_cons, List.countP_cons, List.countP_nil]
  omega

theorem nonneg_expireLoop (w : Game) (bs : List Bug) (hs : 0 ≤ w.score) :
    0 ≤ (expireLoop w bs).1.score := by
  induction bs generalizing w with
  | nil => exact hs
  | cons b bs ih => exact ih _ (expireBug_score_nonneg w b hs)

theorem expireLoop_score_bounds (w : Game) (bs : List Bug) (hs : 0 ≤ w.score) :
    ∃ j : Nat, processedCount (expireLoop w bs).2 = processedCount bs + j ∧
      w.score - (j : Int) ≤ (expireLoop w bs).1.score ∧ (expireLoop w bs).1.score ≤ w.score := by
  induction bs generalizing w with
  | nil => exact ⟨0, rfl, by show w.score - 0 ≤ w.score; omega, le_refl _⟩
  | cons b bs ih =>
    obtain ⟨j1, a1, a2, a3⟩ := expireBug_score_bounds w b hs
    have hs1 : 0 ≤ (expireBug w b).1.score := expireBug_score_nonneg w b hs
    obtain ⟨j2, b1, b2, b3⟩ := ih (expireBug w b).1 hs1
    have hstep1 : (expireLoop w (b :: bs)).1 = (expireLoop (expireBug w b).1 bs).1 := rfl
    have hstep2 : (expireLoop w (b :: bs)).2 =
        (expireBug w b).2 :: (expireLoop (expireBug w b).1 bs).2 := rfl
    refine ⟨j1 + j2, ?_, ?_, ?_⟩
    · rw [hstep2, processedCount_cons, a1, b1, processedCount_cons b bs]
      omega
    · rw [hstep1]
      push_cast
      omega
    · rw [hstep1]
      omega

theorem caughtCount_map_markCaught (hands : List BBox) (bs : List Bug) :
    caughtCount (bs.map (markCaught hands)) = caughtCount bs + (bs.filter (hitBy hands)).length := by
  induction bs with
  | nil => rfl
  | cons b bs ih =>
    unfold caughtCount at ih ⊢
    rw [List.map_cons, List.countP_cons, List.countP_cons, ih, List.filter_cons]
    by_cases hh : hitBy hands b = true
    · have hc : b.caught = false := by
        unfold hitBy at hh
        simp only [Bool.and_eq_true, Bool.not_eq_true'] at hh
        exact hh.1
      unfold markCaught
      rw [if_pos hh, if_pos hh, List.length_cons]
      simp [hc]
      omega
    · unfold markCaught
      rw [if_neg hh, if_neg hh]
      omega

theorem showPredictions_playing (env : Env) (w : Game) (preds : List Prediction)
    (h : w.gameOver = false) :
    showPredictions env w preds =
      ((handPredictions preds).map (fun (pred : Prediction) => pred.bbox)).foldl
        checkBugCollisions (drawBugs (updateSplashes (updateGame env (w.withHands preds)))) := by
  unfold showPredictions Game.withHands
  dsimp only
  rw [if_neg (by simp [h]), List.foldl_map]

theorem restart_resets (env : Env) (w : Game) (hb : BBox) (hgo : w.gameOver = true)
    (hend : (checkPlayAgainButton env w hb).gameOver = false) :
    (checkPlayAgainButton env w hb).score = 0 ∧ (checkPlayAgainButton env w hb).missedBugs = 0 ∧
      (checkPlayAgainButton env w hb).bugs = [] ∧ (checkPlayAgainButton env w hb).splashes = [] := by
  revert hend
  unfold checkPlayAgainButton
  dsimp only
  rw [if_neg (by simp [hgo])]
  split
  · split
    · split
      · exact fun _ => ⟨rfl, rfl, rfl, rfl⟩
      · intro hend
        exact absurd (hgo.symm.trans hend) (by simp)
    · split
      · exact fun _ => ⟨rfl, rfl, rfl, rfl⟩
      · intro hend
        exact absurd (hgo.symm.trans hend) (by simp)
  · split
    · intro hend
      exact absurd (hgo.symm.trans hend) (by simp)
    · intro hend
      exact absurd (hgo.symm.trans hend) (by simp)

theorem foldl_playAgain_restart (env : Env) (hands : List Prediction) (w : Game)
    (hgo : w.gameOver = true)
    (hend : (hands.foldl (fun acc (p : Prediction) =>
      checkPlayAgainButton env acc p.bbox) w).gameOver = false) :
    (hands.foldl (fun acc (p : Prediction) => checkPlayAgainButton env acc p.bbox) w).score = 0 := by
  induction hands generalizing w with
  | nil =>
    rw [List.foldl_nil, hgo] at hend
    exact absurd hend (by simp)
  | cons p ps ih =>
    rw [List.foldl_cons] at hend ⊢
    by_cases h1 : (checkPlayAgainButton env w p.bbox).gameOver = true
    · exact ih _ h1 hend
    · have hf : (checkPlayAgainButton env w p.bbox).gameOver = false := by simpa using h1
      rw [foldl_playAgain_playing env ps _ hf]
      exact (restart_resets env w p.bbox hgo hf).1

theorem showPredictions_over (env : Env) (w : Game) (preds : List Prediction)
    (hgo : w.gameOver = true) :
    showPredictions env w preds =
      (handPredictions preds).foldl
        (fun acc (p : Prediction) => checkPlayAgainButton env acc p.bbox)
        (drawGameOverScreen (w.withHands preds)) := by
  unfold showPredictions Game.withHands
  simp [hgo]

theorem showPredictions_restart_score (env : Env) (w : Game) (preds : List Prediction)
    (hgo : w.gameOver = true) (hend : (showPredictions env w preds).gameOver = false) :
    (showPredictions env w preds).score = 0 := by
  rw [showPredictions_over env w preds hgo] at hend ⊢
  refine foldl_playAgain_restart env _ _ ?_ hend
  rw [(isShift_drawGameOverScreen _).gameOver_eq]
  exact hgo

theorem showPredictions_over_score (env : Env) (w : Game) (preds : List Prediction)
    (hgo : w.gameOver = true) (hend : (showPredictions env w preds).gameOver = true) :
    (showPredictions env w preds).score = w.score := by
  rw [showPredictions_over env w preds hgo] at hend ⊢
  exact ((frozen_drawGameOverScreen _).andThen (frozen_foldl_playAgain env _ _ hend)).1

theorem frameEscapes_playing (env : Env) (w : Game) (preds : List Prediction)
    (hgo : w.gameOver = false) :
    frameEscapes env w preds =
      processedCount (expireStep (spawnStep env (w.withHands preds))).bugs -
        processedCount (spawnStep env (w.withHands preds)).bugs := by
  unfold frameEscapes Game.withHands
  dsimp only
  rw [if_neg (by simp [hgo])]

theorem frameCatches_playing (env : Env) (w : Game) (preds : List Prediction)
    (hgo : w.gameOver = false) :
    frameCatches env w preds =
      caughtCount (showPredictions env w preds).bugs -
        caughtCount (drawBugs (updateSplashes (updateGame env (w.withHands preds)))).bugs := by
  unfold frameCatches Game.withHands
  dsimp only
  rw [if_neg (by simp [hgo])]

theorem playing_frame_score (env : Env) (w : Game) (preds : List Prediction)
    (hgo : w.gameOver = false) (hs : 0 ≤ w.score) :
    w.score - (frameEscapes env w preds : Int) + (frameCatches env w preds : Int) ≤
        (showPredictions env w preds).score ∧
      (showPredictions env w preds).score ≤ w.score + (frameCatches env w preds : Int) := by
  have hgo0 : (w.withHands preds).gameOver = false := hgo
  have hs0 : 0 ≤ (spawnStep env (w.withHands preds)).score := by
    rw [spawnStep_score]; exact hs
  obtain ⟨j, e1, e2, e3⟩ := expireLoop_score_bounds (spawnStep env (w.withHands preds))
    (spawnStep env (w.withHands preds)).bugs hs0
  have hesc : frameEscapes env w preds = j := by
    rw [frameEscapes_playing env w preds hgo]
    show processedCount (expireLoop _ _).2 - _ = j
    rw [e1]
    omega
  have hu : (updateGame env (w.withHands preds)).score =
      (expireLoop (spawnStep env (w.withHands preds))
        (spawnStep env (w.withHands preds)).bugs).1.score := by
    unfold updateGame
    rw [if_neg (by simp [hgo0]), removeStep_score]
    rfl
  have hstart : (drawBugs (updateSplashes (updateGame env (w.withHands preds)))).score =
      (updateGame env (w.withHands preds)).score := by
    show (updateSplashes (updateGame env (w.withHands preds))).score = _
    rw [updateSplashes_score]
  obtain ⟨c1, c2, _⟩ := foldl_collisions_spec
    ((handPredictions preds).map (fun (pred : Prediction) => pred.bbox))
    (drawBugs (updateSplashes (updateGame env (w.withHands preds))))
  have hcat : frameCatches env w preds =
      ((drawBugs (updateSplashes (updateGame env (w.withHands preds)))).bugs.filter
        (hitBy ((handPredictions preds).map (fun (pred : Prediction) => pred.bbox)))).length := by
    rw [frameCatches_playing env w preds hgo, showPredictions_playing env w preds hgo, c1,
      caughtCount_map_markCaught]
    omega
  rw [showPredictions_playing env w preds hgo, c2, ← hcat, hstart, hu, hesc]
  rw [spawnStep_score] at e2 e3
  have hw : (w.withHands preds).score = w.score := rfl
  rw [hw] at e2 e3
  constructor <;> omega

theorem score_nonneg_foldl_collisions (hands : List BBox) (w : Game) (hs : 0 ≤ w.score) :
    0 ≤ (hands.foldl checkBugCollisions w).score := by
  rw [(foldl_collisions_spec hands w).2.1]
  omega

theorem score_nonneg_showPredictions (env : Env) (w : Game) (preds : List Prediction)
    (hs : 0 ≤ w.score) : 0 ≤ (showPredictions env w preds).score := by
  by_cases hgo : w.gameOver = true
  · by_cases hend : (showPredictions env w preds).gameOver = true
    · rw [showPredictions_over_score env w preds hgo hend]
      exact hs
    · rw [showPredictions_restart_score env w preds hgo (by simpa using hend)]
  · have hgo2 : w.gameOver = false := by simpa using hgo
    have hgo0 : (w.withHands preds).gameOver = false := hgo2
    rw [showPredictions_playing env w preds hgo2]
    refine score_nonneg_foldl_collisions _ _ ?_
    show 0 ≤ (updateSplashes (updateGame env (w.withHands preds))).score
    rw [updateSplashes_score]
    unfold updateGame
    rw [if_neg (by simp [hgo0]), removeStep_score]
    exact nonneg_expireLoop _ _ (by rw [spawnStep_score]; exact hs)

theorem tallyFrame_state (env : Env) (t : Tally) (preds : List Prediction) :
    (tallyFrame env t preds).state = showPredictions env t.state preds := by
  unfold tallyFrame
  dsimp only
  split
  · split <;> rfl
  · rfl

theorem tallyFrame_bounded (env : Env) (t : Tally) (preds : List Prediction)
    (h : t.Bounded) : (tallyFrame env t preds).Bounded := by
  obtain ⟨h1, h2, h3⟩ := h
  unfold tallyFrame
  dsimp only
  split
  · rename_i hgo
    split
    · rename_i hend
      have hsc := showPredictions_over_score env t.state preds hgo hend
      exact ⟨by show 0 ≤ (showPredictions env t.state preds).score; rw [hsc]; exact h1,
        by show _ ≤ (showPredictions env t.state preds).score; rw [hsc]; exact h2,
        by show (showPredictions env t.state preds).score ≤ _; rw [hsc]; exact h3⟩
    · rename_i hend
      have hend2 : (showPredictions env t.state preds).gameOver = false := by simpa using hend
      have hsc := showPredictions_restart_score env t.state preds hgo hend2
      exact ⟨by show 0 ≤ (showPredictions env t.state preds).score; rw [hsc],
        by show ((0 : Nat) : Int) - ((0 : Nat) : Int) ≤ (showPredictions env t.state preds).score
           rw [hsc]; simp,
        by show (showPredictions env t.state preds).score ≤ ((0 : Nat) : Int)
           rw [hsc]; simp⟩
  · rename_i hgo
    have hgo2 : t.state.gameOver = false := by simpa using hgo
    obtain ⟨p1, p2⟩ := playing_frame_score env t.state preds hgo2 h1
    refine ⟨?_, ?_, ?_⟩
    · show 0 ≤ (showPredictions env t.state preds).score
      exact score_nonneg_showPredictions env t.state preds h1
    · show ((t.catches + frameCatches env t.state preds : Nat) : Int) -
          ((t.escapes + frameEscapes env t.state preds : Nat) : Int) ≤
          (showPredictions env t.state preds).score
      push_cast
      omega
    · show (showPredictions env t.state preds).score ≤
          ((t.catches + frameCatches env t.state preds : Nat) : Int)
      push_cast
      omega

theorem foldl_tallyFrame (env : Env) (frames : List (List Prediction)) (t : Tally)
    (h : t.Bounded) :
    (frames.foldl (tallyFrame env) t).state = run env t.state frames ∧
      (frames.foldl (tallyFrame env) t).Bounded := by
  induction frames generalizing t with
  | nil => exact ⟨rfl, h⟩
  | cons p ps ih =>
    obtain ⟨i1, i2⟩ := ih (tallyFrame env t p) (tallyFrame_bounded env t p h)
    rw [List.foldl_cons, run_cons, i1, tallyFrame_state]
    exact ⟨rfl, i2⟩

/-- C5, as stated, fails: in the demonstration run a bug escapes while the
score is `0` (the score stays `0`), then another bug is caught; the score is
`1` although `max 0 (catches - escapes) = max 0 (1 - 1) = 0`. -/
theorem score_not_catches_minus_escapes :
    Monotone stepClock ∧
      (tally demoEnv (Game.initial stepClock demoRand) demoFrames).catches = 1 ∧
      (tally demoEnv (Game.initial stepClock demoRand) demoFrames).escapes = 1 ∧
      (run demoEnv (Game.initial stepClock demoRand) demoFrames).score = 1 ∧
      (tally demoEnv (Game.initial stepClock demoRand) demoFrames).state.score ≠
        max 0 (((tally demoEnv (Game.initial stepClock demoRand) demoFrames).catches : Int) -
          ((tally demoEnv (Game.initial stepClock demoRand) demoFrames).escapes : Int)) :=
  ⟨monotone_stepClock, by decide!, by decide!, by decide!, by decide!⟩

/-- Bounds on the score: after any sequence of frames, with `catches` the
number of bugs marked caught and `escapes` the number of bugs marked processed
since the game started or was last restarted,
`max 0 (catches - escapes) ≤ score ≤ catches`. -/
theorem score_between_net_and_catches (env : Env) (clock rand : Nat → ℚ)
    (frames : List (List Prediction)) :
    (tally env (Game.initial clock rand) frames).state =
        run env (Game.initial clock rand) frames ∧
      max 0 (((tally env (Game.initial clock rand) frames).catches : Int) -
          ((tally env (Game.initial clock rand) frames).escapes : Int)) ≤
        (run env (Game.initial clock rand) frames).score ∧
      (run env (Game.initial clock rand) frames).score ≤
        ((tally env (Game.initial clock rand) frames).catches : Int) := by
  have hb : ({ state := Game.initial clock rand, catches := 0, escapes := 0 } : Tally).Bounded :=
    ⟨le_refl _, le_refl _, le_refl _⟩
  obtain ⟨h1, h2, h3, h4⟩ := foldl_tallyFrame env frames _ hb
  have h1b : (tally env (Game.initial clock rand) frames).state =
      run env (Game.initial clock rand) frames := h1
  have h2b : 0 ≤ (tally env (Game.initial clock rand) frames).state.score := h2
  have h3b : ((tally env (Game.initial clock rand) frames).catches : Int) -
      ((tally env (Game.initial clock rand) frames).escapes : Int) ≤
      (tally env (Game.initial clock rand) frames).state.score := h3
  have h4b : (tally env (Game.initial clock rand) frames).state.score ≤
      ((tally env (Game.initial clock rand) frames).catches : Int) := h4
  rw [h1b] at h2b h3b h4b
  exact ⟨h1b, max_le h2b h3b, h4b⟩

end Score

/-! ## C11: spawn placement -/

section Placement

theorem Game.IsShift.currentHandBoxes_eq {w v : Game} (h : w.IsShift v) :
    v.currentHandBoxes = w.currentHandBoxes := by
  obtain ⟨k, m, rfl⟩ := h
  rfl

theorem isShift_samplePosition (env : Env) (w : Game) : w.IsShift (samplePosition env w).2 :=
  (isShift_sampleCoord _ _ w).seq (isShift_sampleCoord _ _ _)

theorem isPositionInHand_of_boxes {w v : Game} (h : v.currentHandBoxes = w.currentHandBoxes)
    (x y r : ℚ) : isPositionInHand v x y r = isPositionInHand w x y r := by
  unfold isPositionInHand
  rw [h]

theorem placeBug_succ (env : Env) (n : Nat) (x y : ℚ) (w : Game) :
    placeBug env (n + 1) x y w =
      if isPositionInHand w (samplePosition env w).1.1 (samplePosition env w).1.2 25 = false
      then samplePosition env w
      else placeBug env n (samplePosition env w).1.1 (samplePosition env w).1.2
        (samplePosition env w).2 := by
  have hb := isPositionInHand_of_boxes (isShift_samplePosition env w).currentHandBoxes_eq
    (samplePosition env w).1.1 (samplePosition env w).1.2 25
  rw [← hb]
  show (if (!isPositionInHand (samplePosition env w).2 (samplePosition env w).1.1
      (samplePosition env w).1.2 25) = true then samplePosition env w
    else placeBug env n (samplePosition env w).1.1 (samplePosition env w).1.2
      (samplePosition env w).2) = _
  cases isPositionInHand (samplePosition env w).2 (samplePosition env w).1.1
    (samplePosition env w).1.2 25 <;> rfl

theorem placeBug_first_free (env : Env) (n : Nat) (x y : ℚ) (w : Game) :
    ∃ i, i ≤ n ∧ placeBug env (n + 1) x y w = nthSample env i w ∧
      (∀ j, j < i →
        isPositionInHand w (nthSample env j w).1.1 (nthSample env j w).1.2 25 = true) ∧
      (isPositionInHand w (nthSample env i w).1.1 (nthSample env i w).1.2 25 = false ∨ i = n) := by
  induction n generalizing x y w with
  | zero =>
    refine ⟨0, le_refl _, ?_, fun j hj => absurd hj (Nat.not_lt_zero j), Or.inr rfl⟩
    rw [placeBug_succ]
    split <;> rfl
  | succ n ih =>
    by_cases hfree :
        isPositionInHand w (samplePosition env w).1.1 (samplePosition env w).1.2 25 = false
    · refine ⟨0, Nat.zero_le _, ?_, fun j hj => absurd hj (Nat.not_lt_zero j), Or.inl hfree⟩
      rw [placeBug_succ, if_pos hfree]
      rfl
    · have hin :
          isPositionInHand w (samplePosition env w).1.1 (samplePosition env w).1.2 25 = true := by
        simpa using hfree
      obtain ⟨i, hi, h1, h2, h3⟩ := ih (samplePosition env w).1.1 (samplePosition env w).1.2
        (samplePosition env w).2
      have hboxes : ∀ a b r, isPositionInHand (samplePosition env w).2 a b r =
          isPositionInHand w a b r :=
        isPositionInHand_of_boxes (isShift_samplePosition env w).currentHandBoxes_eq
      refine ⟨i + 1, Nat.succ_le_succ hi, ?_, ?_, ?_⟩
      · rw [placeBug_succ, if_neg hfree, h1]
        rfl
      · intro j hj
        cases j with
        | zero => exact hin
        | succ j =>
          have := h2 j (Nat.lt_of_succ_lt_succ hj)
          rw [hboxes] at this
          exact this
      · rcases h3 with h3 | h3
        · rw [hboxes] at h3
          exact Or.inl h3
        · exact Or.inr (by rw [h3])

/-- The fallback of the placement loop at a concrete state: all 50 samples
overlap the hand box, and the loop returns the 50th. -/
theorem placeBug_fallback_demo :
    (∀ j, j < 50 → isPositionInHand coveredState (nthSample demoEnv j coveredState).1.1
        (nthSample demoEnv j coveredState).1.2 25 = true) ∧
      (placeBug demoEnv 50 0 0 coveredState).1 = (nthSample demoEnv 49 coveredState).1 ∧
      (placeBug demoEnv 50 0 0 coveredState).1 ≠ (nthSample demoEnv 48 coveredState).1 :=
  ⟨by decide!, by decide!, by decide!⟩

end Placement

/-- C11: for every state (any current hand boxes, any random stream) the
placement loop of the `Bug` constructor stops after sampling `i + 1 ≤ 50`
positions, where every sample before the `i`-th (counted from `0`) overlaps a
hand box (`isPositionInHand(x, y, 25)`), and the `i`-th either does not overlap
one or is the 50th sample; the new bug sits at that `i`-th sample.  The
constructor is a total function: it always returns a bug. -/
theorem placement_first_free_sample (env : Env) (w : Game) :
    ∃ i, i < 50 ∧ placeBug env 50 0 0 w = nthSample env i w ∧
      ((Bug.new env w).1.x, (Bug.new env w).1.y) = (nthSample env i w).1 ∧
      (∀ j, j < i →
        isPositionInHand w (nthSample env j w).1.1 (nthSample env j w).1.2 25 = true) ∧
      (isPositionInHand w (nthSample env i w).1.1 (nthSample env i w).1.2 25 = false ∨
        i = 49) := by
  obtain ⟨i, hi, h1, h2, h3⟩ := placeBug_first_free env 49 0 0 w
  refine ⟨i, Nat.lt_succ_of_le hi, h1, ?_, h2, h3⟩
  show (placeBug env 50 0 0 w).1 = _
  rw [h1]

/-! ## C12: frames without a hand box during game over -/

section Idle

theorem Game.IsShift.isHoldingRestart_eq {w v : Game} (h : w.IsShift v) :
    v.isHoldingRestart = w.isHoldingRestart := by
  obtain ⟨k, m, rfl⟩ := h
  rfl

theorem Game.IsShift.restartHoldStart_eq {w v : Game} (h : w.IsShift v) :
    v.restartHoldStart = w.restartHoldStart := by
  obtain ⟨k, m, rfl⟩ := h
  rfl

theorem handPredictions_eq_nil (preds : List Prediction) (h : ∀ p ∈ preds, p.cls = 5) :
    handPredictions preds = [] := by
  unfold handPredictions
  rw [List.filter_eq_nil_iff]
  intro p hp
  simp [h p hp]

theorem isShift_handless_frame (env : Env) (w : Game) (preds : List Prediction)
    (hgo : w.gameOver = true) (h : ∀ p ∈ preds, p.cls = 5) :
    (w.withHands preds).IsShift (showPredictions env w preds) := by
  rw [showPredictions_over env w preds hgo, handPredictions_eq_nil preds h, List.foldl_nil]
  exact isShift_drawGameOverScreen _

theorem handless_run (env : Env) (idle : List (List Prediction)) (w : Game)
    (hgo : w.gameOver = true) (hidle : ∀ f ∈ idle, ∀ p ∈ f, p.cls = 5) :
    (run env w idle).isHoldingRestart = w.isHoldingRestart ∧
      (run env w idle).restartHoldStart = w.restartHoldStart ∧
      (run env w idle).gameOver = true := by
  induction idle generalizing w with
  | nil => exact ⟨rfl, rfl, hgo⟩
  | cons f fs ih =>
    have hs := isShift_handless_frame env w f hgo (hidle f (List.mem_cons_self _ _))
    have hgo1 : (showPredictions env w f).gameOver = true := by
      rw [hs.gameOver_eq]
      exact hgo
    obtain ⟨i1, i2, i3⟩ := ih (showPredictions env w f) hgo1
      (fun g hg => hidle g (List.mem_cons_of_mem _ hg))
    rw [run_cons]
    refine ⟨?_, ?_, i3⟩
    · rw [i1, hs.isHoldingRestart_eq]
      rfl
    · rw [i2, hs.restartHoldStart_eq]
      rfl

theorem checkPlayAgainButton_restart (env : Env) (u : Game) (hb : BBox)
    (hgo : u.gameOver = true) (hover : isOverButton env hb = true)
    (hhold : u.isHoldingRestart = true) (hel : u.restartHoldStart + 5000 ≤ u.clock 0) :
    (checkPlayAgainButton env u hb).gameOver = false ∧
      (checkPlayAgainButton env u hb).score = 0 ∧
      (checkPlayAgainButton env u hb).missedBugs = 0 ∧
      (checkPlayAgainButton env u hb).bugs = [] := by
  have hel2 : restartHoldDuration ≤ u.clock 0 - u.restartHoldStart := by
    unfold restartHoldDuration
    linarith
  simp [checkPlayAgainButton, hgo, hover, hhold, hel2]

theorem restart_after_handless_run (env : Env) (v : Game) (preds : List Prediction)
    (p : Prediction) (ps : List Prediction) (hgo : v.gameOver = true)
    (hhold : v.isHoldingRestart = true) (hm : Monotone v.clock)
    (hp : handPredictions preds = p :: ps) (hover : isOverButton env p.bbox = true)
    (hel : v.restartHoldStart + 5000 ≤ v.clock 0) :
    (showPredictions env v preds).gameOver = false ∧
      (showPredictions env v preds).score = 0 ∧
      (showPredictions env v preds).missedBugs = 0 ∧
      (showPredictions env v preds).bugs = [] := by
  have hs : (v.withHands preds).IsShift (drawGameOverScreen (v.withHands preds)) :=
    isShift_drawGameOverScreen _
  obtain ⟨k, hk⟩ := hs.later
  have hclock : v.restartHoldStart + 5000 ≤ (drawGameOverScreen (v.withHands preds)).clock 0 := by
    rw [hk]
    exact le_trans hel (hm (Nat.zero_le _))
  have hr := checkPlayAgainButton_restart env (drawGameOverScreen (v.withHands preds)) p.bbox
    (by rw [hs.gameOver_eq]; exact hgo) hover
    (by rw [hs.isHoldingRestart_eq]; exact hhold)
    (by rw [hs.restartHoldStart_eq]; exact hclock)
  rw [showPredictions_over env v preds hgo, hp, List.foldl_cons,
    foldl_playAgain_playing env ps _ hr.1]
  exact hr

theorem monotone_holdClock : Monotone holdClock := by
  intro a b hab
  unfold holdClock
  split_ifs <;> first | omega | norm_num

end Idle

/-- C12: during game over, frames whose detections contain no hand box (no
detection, or only class-5 detections) leave `isHoldingRestart` and
`restartHoldStart` unchanged and the game over: the hold is not cancelled.  If
a hold was active and the clock, which never runs backwards, has reached
`restartHoldStart + 5000` after such frames, the next frame whose first hand
box overlaps the Play-Again button restarts the game. -/
theorem hold_survives_handless_frames (env : Env) (w : Game)
    (idle : List (List Prediction))
    (hgo : w.gameOver = true) (hidle : ∀ f ∈ idle, ∀ p ∈ f, p.cls = 5) :
    ((run env w idle).isHoldingRestart = w.isHoldingRestart ∧
        (run env w idle).restartHoldStart = w.restartHoldStart ∧
        (run env w idle).gameOver = true) ∧
      ∀ (preds : List Prediction) (p : Prediction) (ps : List Prediction),
        handPredictions preds = p :: ps → isOverButton env p.bbox = true →
        w.isHoldingRestart = true → Monotone w.clock →
        w.restartHoldStart + 5000 ≤ (run env w idle).clock 0 →
        (showPredictions env (run env w idle) preds).gameOver = false ∧
          (showPredictions env (run env w idle) preds).score = 0 ∧
          (showPredictions env (run env w idle) preds).missedBugs = 0 ∧
          (showPredictions env (run env w idle) preds).bugs = [] := by
  obtain ⟨h1, h2, h3⟩ := handless_run env idle w hgo hidle
  refine ⟨⟨h1, h2, h3⟩, fun preds p ps hp hover hhold hm hel => ?_⟩
  exact restart_after_handless_run env (run env w idle) preds p ps h3
    (by rw [h1]; exact hhold) ((later_run env idle w).monotone hm) hp hover
    (by rw [h2]; exact hel)

/-- C12 at a concrete run from the initial state: the game ends in the fifth
frame, a hand over the button starts the hold at `6000` in the sixth, the
seventh and eighth frame (no detection, then only a face, at `8000` and
`10000`) keep the hold, and the hand that overlaps the button again at `11000`
restarts the game. -/
theorem hold_survives_handless_frames_demo :
    Monotone holdClock ∧
      ((run demoEnv (Game.initial holdClock zeroRand) holdFrames).gameOver = true ∧
        ∀ f ∈ idleFrames, ∀ p ∈ f, p.cls = 5) ∧
      ((run demoEnv (Game.initial holdClock zeroRand) holdFrames).isHoldingRestart = true ∧
        (run demoEnv (Game.initial holdClock zeroRand) holdFrames).restartHoldStart = 6000) ∧
      ((run demoEnv (run demoEnv (Game.initial holdClock zeroRand) holdFrames)
          idleFrames).isHoldingRestart = true ∧
        (run demoEnv (run demoEnv (Game.initial holdClock zeroRand) holdFrames)
          idleFrames).restartHoldStart = 6000 ∧
        (run demoEnv (run demoEnv (Game.initial holdClock zeroRand) holdFrames)
          idleFrames).clock 0 = 11000) ∧
      (showPredictions demoEnv
        (run demoEnv (run demoEnv (Game.initial holdClock zeroRand) holdFrames) idleFrames)
        [buttonPrediction]).gameOver = false :=
  ⟨monotone_holdClock, ⟨by decide!, by decide!⟩, ⟨by decide!, by decide!⟩,
    ⟨by decide!, by decide!, by decide!⟩,
    ((hold_survives_handless_frames demoEnv
        (run demoEnv (Game.initial holdClock zeroRand) holdFrames) idleFrames
        (by decide!) (by decide!)).2 [buttonPrediction] buttonPrediction [] (by decide!)
        (by decide!) (by decide!)
        ((later_run demoEnv holdFrames _).monotone monotone_holdClock) (by decide!)).1⟩

/-! ## C8: expiry on arbitrary Playing states -/

section Charged

theorem max_zero_pred_sub_int (s : Int) (k : Nat) :
    max 0 (max 0 (s - 1) - (k : Int)) = max 0 (s - ((k + 1 : Nat) : Int)) := by
  rcases le_or_lt 0 s with h | h
  · exact max_zero_pred_sub s k h
  · push_cast
    rw [max_eq_left (by omega : s - 1 ≤ 0), max_eq_left (by omega : (0 : Int) - k ≤ 0),
      max_eq_left (by omega : s - ((k : Int) + 1) ≤ 0)]

theorem expireLoop_charged (now : ℚ) (bs : List Bug) (w : Game)
    (hc : ∀ i, i < bs.length → w.clock i = now) :
    (expireLoop w bs).2 = bs.map (fun b => b.markEscaped now) ∧
      (expireLoop w bs).1.missedBugs =
        w.missedBugs + ((bs.countP (chargedAt now) : Nat) : Int) ∧
      (expireLoop w bs).1.score =
        (if bs.countP (chargedAt now) = 0 then w.score
         else max 0 (w.score - ((bs.countP (chargedAt now) : Nat) : Int))) := by
  induction bs generalizing w with
  | nil =>
    refine ⟨rfl, ?_, ?_⟩
    · simp [expireLoop]
    · simp [expireLoop]
  | cons b bs ih =>
    have hstep1 : (expireLoop w (b :: bs)).1 = (expireLoop (expireBug w b).1 bs).1 := rfl
    have hstep2 : (expireLoop w (b :: bs)).2 =
        (expireBug w b).2 :: (expireLoop (expireBug w b).1 bs).2 := rfl
    have hc0 : w.clock 0 = now := hc 0 (by simp)
    have hc1 : ∀ i, i < bs.length → (expireBug w b).1.clock i = now := fun i hi => by
      rw [expireBug_clock]
      exact hc _ (by simp only [List.length_cons]; omega)
    obtain ⟨i1, i2, i3⟩ := ih (expireBug w b).1 hc1
    rw [hstep1, hstep2, i1, i2, i3, expireBug_snd, hc0, List.map_cons]
    refine ⟨rfl, ?_, ?_⟩
    · by_cases hcond : chargedAt now b = true
      · have hcond2 : (b.expiredAt (w.clock 0) && !b.caught && !b.processed) = true := by
          rw [hc0]; exact hcond
        rw [(expireBug_escaped w b hcond2).2, List.countP_cons_of_pos _ _ hcond]
        push_cast
        ring
      · have hcond2 : (b.expiredAt (w.clock 0) && !b.caught && !b.processed) = false := by
          rw [hc0]
          simpa [chargedAt] using hcond
        rw [expireBug_kept w b hcond2, List.countP_cons_of_neg _ _ hcond]
        rfl
    · by_cases hcond : chargedAt now b = true
      · have hcond2 : (b.expiredAt (w.clock 0) && !b.caught && !b.processed) = true := by
          rw [hc0]; exact hcond
        rw [(expireBug_escaped w b hcond2).1, List.countP_cons_of_pos _ _ hcond,
          if_neg (Nat.succ_ne_zero _)]
        by_cases h0 : bs.countP (chargedAt now) = 0
        · rw [if_pos h0, h0]
          rfl
        · rw [if_neg h0]
          exact max_zero_pred_sub_int w.score _
      · have hcond2 : (b.expiredAt (w.clock 0) && !b.caught && !b.processed) = false := by
          rw [hc0]
          simpa [chargedAt] using hcond
        rw [expireBug_kept w b hcond2, List.countP_cons_of_neg _ _ hcond]
        rfl

theorem updateGame_charged (env : Env) (w : Game) (now : ℚ) (hplay : w.gameOver = false)
    (hc : ∀ i, i < 2 * w.bugs.length + 3 → w.clock i = now) (hr : ∀ i, 0 ≤ w.rand i) :
    (updateGame env w).missedBugs =
        w.missedBugs + ((w.bugs.countP (chargedAt now) : Nat) : Int) ∧
      (updateGame env w).score =
        (if w.bugs.countP (chargedAt now) = 0 then w.score
         else max 0 (w.score - ((w.bugs.countP (chargedAt now) : Nat) : Int))) ∧
      (updateGame env w).bugs =
        w.bugs.filter (survivesAt now) ++
          (if w.rand 0 < 0.008 then [(Bug.new env w.roll).1] else []) := by
  have hu : updateGame env w = removeStep (expireStep (spawnStep env w)) := by
    unfold updateGame
    rw [if_neg (by simp [hplay])]
  have hlen : (spawnStep env w).bugs.length =
      w.bugs.length + (if w.rand 0 < 0.008 then 1 else 0) := by
    rw [spawnStep_bugs, List.length_append]
    split <;> rfl
  have hsb : (if w.rand 0 < 0.008 then 1 else 0 : Nat) ≤ 1 := by
    split <;> omega
  have hcs : ∀ i, i < (spawnStep env w).bugs.length → (spawnStep env w).clock i = now := by
    intro i hi
    rw [spawnStep_clock]
    rw [hlen] at hi
    refine hc _ ?_
    omega
  have hsm : (spawnStep env w).missedBugs = w.missedBugs := by
    unfold spawnStep
    split
    · exact ((w.isShift_roll).seq (isShift_Bug_new env w.roll)).missedBugs_eq
    · rfl
  obtain ⟨e1, e2, e3⟩ := expireLoop_charged now (spawnStep env w).bugs (spawnStep env w) hcs
  have hbe : (expireStep (spawnStep env w)).bugs =
      (spawnStep env w).bugs.map (fun b => b.markEscaped now) := e1
  have hce : ∀ i, i < (expireStep (spawnStep env w)).bugs.length →
      (expireStep (spawnStep env w)).clock i = now := by
    intro i hi
    rw [hbe, List.length_map, hlen] at hi
    show (expireLoop (spawnStep env w) (spawnStep env w).bugs).1.clock i = now
    rw [expireLoop_clock, spawnStep_clock, hlen]
    refine hc _ ?_
    omega
  have hk := keepLoop_const now (expireStep (spawnStep env w)).bugs
    (expireStep (spawnStep env w)) hce
  have hfresh := Bug_new_fresh env w.roll now (hc 0 (by omega)) (fun i => hr (i + 1))
  have hcount : (spawnStep env w).bugs.countP (chargedAt now) =
      w.bugs.countP (chargedAt now) := by
    rw [spawnStep_bugs, List.countP_append]
    split
    · simp [List.countP_cons, chargedAt, hfresh.1]
    · simp
  have hfilter : (spawnStep env w).bugs.filter (survivesAt now) =
      w.bugs.filter (survivesAt now) ++
        (if w.rand 0 < 0.008 then [(Bug.new env w.roll).1] else []) := by
    rw [spawnStep_bugs, List.filter_append]
    split
    · simp [List.filter_cons, survivesAt, hfresh.1, hfresh.2.1]
    · simp
  rw [hu]
  refine ⟨?_, ?_, ?_⟩
  · show (keepLoop (expireStep (spawnStep env w)) _).1.missedBugs = _
    rw [(isShift_keepLoop _ _).missedBugs_eq]
    show (expireLoop (spawnStep env w) (spawnStep env w).bugs).1.missedBugs = _
    rw [e2, hsm, hcount]
  · show (keepLoop (expireStep (spawnStep env w)) _).1.score = _
    rw [(isShift_keepLoop _ _).score_eq]
    show (expireLoop (spawnStep env w) (spawnStep env w).bugs).1.score = _
    rw [e3, spawnStep_score, hcount]
  · show (keepLoop (expireStep (spawnStep env w)) (expireStep (spawnStep env w)).bugs).2 = _
    rw [hk, hbe, filter_kept_map_markEscaped, hfilter]

theorem backRun_clock (i : Nat) :
    (run demoEnv (Game.initial backClock backRand) [[], []]).clock i = 1000 := by
  have h : (run demoEnv (Game.initial backClock backRand) [[], []]).clock =
      fun n => backClock (n + 1 + 1 + 1 + 1 + 1) := by
    with_unfolding_all rfl
  rw [h]
  simp [backClock]

end Charged

/-- C8, the claim as stated fails: the run of two frames without a hand under
`backClock` ends in a Playing state whose collection holds one bug, expired at
`now = 1000` (`1000 - 0 > 300`), not caught, and already processed (the expiry
loop of the second frame read `1000`, its `filter` read `100`).  Every later
`Date.now()` returns `1000`, so the claim counts `k = 1`, but `updateGame` does
not charge the bug again: `missedBugs` stays `1` instead of becoming `2`; the
bug is removed all the same. -/
theorem expiry_skips_processed_bug :
    (run demoEnv (Game.initial backClock backRand) [[], []]).gameOver = false ∧
      (∀ i, (run demoEnv (Game.initial backClock backRand) [[], []]).clock i = 1000) ∧
      (run demoEnv (Game.initial backClock backRand) [[], []]).bugs =
        [{ x := 30, y := 30, radius := 25, lifetime := 300, createdAt := 0, caught := false,
           wiggle := 3 / 5, processed := true }] ∧
      (run demoEnv (Game.initial backClock backRand) [[], []]).bugs.countP (escapesAt 1000)
        = 1 ∧
      (run demoEnv (Game.initial backClock backRand) [[], []]).missedBugs = 1 ∧
      (updateGame demoEnv
        (run demoEnv (Game.initial backClock backRand) [[], []])).missedBugs = 1 ∧
      (updateGame demoEnv (run demoEnv (Game.initial backClock backRand) [[], []])).bugs = [] ∧
      ¬ ((updateGame demoEnv
            (run demoEnv (Game.initial backClock backRand) [[], []])).missedBugs =
          (run demoEnv (Game.initial backClock backRand) [[], []]).missedBugs +
            (((run demoEnv (Game.initial backClock backRand) [[], []]).bugs.countP
              (escapesAt 1000) : Nat) : Int)) :=
  ⟨by decide!, backRun_clock, by decide!, by decide!, by decide!, by decide!, by decide!,
    by decide!⟩

/-- C8, amended: for every Playing state `w` and time `now` (the `Date.now()`
calls of `updateGame`, at most `2 * bugs.length + 3` of them, return `now`, and
`Math.random()` is not negative), `updateGame` applies the escape penalty once
to each bug of the collection that is expired (`now - createdAt > lifetime`),
not caught and not already processed: with `k` such bugs, `missedBugs` grows by
exactly `k`; `score` becomes `max 0 (score - k)` when `k > 0` and is unchanged
when `k = 0`, which is `max 0 (score - k)` whenever the old score is not
negative; and the collection becomes the old bugs that are neither expired nor
caught, in their order, followed by the newly spawned bug if one was spawned.
When no bug of the collection is already processed, `k` is the number of bugs
that are expired and not caught. -/
theorem expiry_penalises_unprocessed_bugs (env : Env) (w : Game) (now : ℚ)
    (hplay : w.gameOver = false)
    (hnow : ∀ i, i < 2 * w.bugs.length + 3 → w.clock i = now)
    (hrand : ∀ i, 0 ≤ w.rand i) :
    (updateGame env w).missedBugs =
        w.missedBugs + ((w.bugs.countP (chargedAt now) : Nat) : Int) ∧
      (updateGame env w).score =
        (if w.bugs.countP (chargedAt now) = 0 then w.score
         else max 0 (w.score - ((w.bugs.countP (chargedAt now) : Nat) : Int))) ∧
      (0 ≤ w.score → (updateGame env w).score =
        max 0 (w.score - ((w.bugs.countP (chargedAt now) : Nat) : Int))) ∧
      (updateGame env w).bugs =
        w.bugs.filter (survivesAt now) ++
          (if w.rand 0 < 0.008 then [(Bug.new env w.roll).1] else []) ∧
      ((∀ b ∈ w.bugs, b.processed = false) →
        w.bugs.countP (chargedAt now) = w.bugs.countP (escapesAt now)) := by
  obtain ⟨h1, h2, h3⟩ := updateGame_charged env w now hplay hnow hrand
  refine ⟨h1, h2, ?_, h3, ?_⟩
  · intro hs
    rw [h2]
    split
    · next h0 =>
      rw [h0]
      simp [hs]
    · rfl
  · intro hp
    refine List.countP_congr ?_
    intro b hb
    simp [chargedAt, escapesAt, hp b hb]

/-- C8, amended, at two states.  At the scenario of the specification (a bug
with lifetime `1000` created at `t = 0` and never caught, at `t = 1001`) the bug
is penalised once (`missedBugs` becomes `1`, `score` stays at its floor `0`) and
removed.  At `mixedState` (clock `1000`, score `5`, one miss; an expired bug
already processed, an expired bug not yet processed, a live bug) exactly one
bug is charged: `missedBugs` becomes `2`, `score` becomes `4`, and only the
live bug remains. -/
theorem expiry_penalises_unprocessed_bugs_demo :
    ((run demoEnv (Game.initial expiryClock expiryRand) [[]]).gameOver = false ∧
        (∀ i, i < 2 * (run demoEnv (Game.initial expiryClock expiryRand) [[]]).bugs.length + 3 →
          (run demoEnv (Game.initial expiryClock expiryRand) [[]]).clock i = 1001) ∧
        (∀ i, 0 ≤ (run demoEnv (Game.initial expiryClock expiryRand) [[]]).rand i)) ∧
      ((updateGame demoEnv (run demoEnv (Game.initial expiryClock expiryRand) [[]])).missedBugs =
          (run demoEnv (Game.initial expiryClock expiryRand) [[]]).missedBugs +
            (((run demoEnv (Game.initial expiryClock expiryRand) [[]]).bugs.countP
              (chargedAt 1001) : Nat) : Int) ∧
        (updateGame demoEnv (run demoEnv (Game.initial expiryClock expiryRand) [[]])).score =
          (if (run demoEnv (Game.initial expiryClock expiryRand) [[]]).bugs.countP
              (chargedAt 1001) = 0
           then (run demoEnv (Game.initial expiryClock expiryRand) [[]]).score
           else max 0 ((run demoEnv (Game.initial expiryClock expiryRand) [[]]).score -
            (((run demoEnv (Game.initial expiryClock expiryRand) [[]]).bugs.countP
              (chargedAt 1001) : Nat) : Int))) ∧
        (0 ≤ (run demoEnv (Game.initial expiryClock expiryRand) [[]]).score →
          (updateGame demoEnv (run demoEnv (Game.initial expiryClock expiryRand) [[]])).score =
            max 0 ((run demoEnv (Game.initial expiryClock expiryRand) [[]]).score -
              (((run demoEnv (Game.initial expiryClock expiryRand) [[]]).bugs.countP
                (chargedAt 1001) : Nat) : Int))) ∧
        (updateGame demoEnv (run demoEnv (Game.initial expiryClock expiryRand) [[]])).bugs =
          (run demoEnv (Game.initial expiryClock expiryRand) [[]]).bugs.filter
              (survivesAt 1001) ++
            (if (run demoEnv (Game.initial expiryClock expiryRand) [[]]).rand 0 < 0.008
             then [(Bug.new demoEnv
              (run demoEnv (Game.initial expiryClock expiryRand) [[]]).roll).1]
             else []) ∧
        ((∀ b ∈ (run demoEnv (Game.initial expiryClock expiryRand) [[]]).bugs,
            b.processed = false) →
          (run demoEnv (Game.initial expiryClock expiryRand) [[]]).bugs.countP
              (chargedAt 1001) =
            (run demoEnv (Game.initial expiryClock expiryRand) [[]]).bugs.countP
              (escapesAt 1001))) ∧
      (run demoEnv (Game.initial expiryClock expiryRand) [[]]).bugs =
        [{ x := 30, y := 30, radius := 25, lifetime := 1000, createdAt := 0, caught := false,
           wiggle := 3 / 10, processed := false }] ∧
      (run demoEnv (Game.initial expiryClock expiryRand) [[]]).bugs.countP (chargedAt 1001)
        = 1 ∧
      (updateGame demoEnv (run demoEnv (Game.initial expiryClock expiryRand) [[]])).missedBugs
        = 1 ∧
      (updateGame demoEnv (run demoEnv (Game.initial expiryClock expiryRand) [[]])).score = 0 ∧
      (updateGame demoEnv (run demoEnv (Game.initial expiryClock expiryRand) [[]])).bugs = [] ∧
      (mixedState.gameOver = false ∧
        (∀ i, i < 2 * mixedState.bugs.length + 3 → mixedState.clock i = 1000) ∧
        (∀ i, 0 ≤ mixedState.rand i)) ∧
      ((updateGame demoEnv mixedState).missedBugs =
          mixedState.missedBugs + ((mixedState.bugs.countP (chargedAt 1000) : Nat) : Int) ∧
        (updateGame demoEnv mixedState).score =
          (if mixedState.bugs.countP (chargedAt 1000) = 0 then mixedState.score
           else max 0 (mixedState.score -
            ((mixedState.bugs.countP (chargedAt 1000) : Nat) : Int))) ∧
        (0 ≤ mixedState.score → (updateGame demoEnv mixedState).score =
          max 0 (mixedState.score - ((mixedState.bugs.countP (chargedAt 1000) : Nat) : Int))) ∧
        (updateGame demoEnv mixedState).bugs =
          mixedState.bugs.filter (survivesAt 1000) ++
            (if mixedState.rand 0 < 0.008 then [(Bug.new demoEnv mixedState.roll).1] else []) ∧
        ((∀ b ∈ mixedState.bugs, b.processed = false) →
          mixedState.bugs.countP (chargedAt 1000) = mixedState.bugs.countP (escapesAt 1000))) ∧
      mixedState.bugs.countP (chargedAt 1000) = 1 ∧
      mixedState.bugs.countP (escapesAt 1000) = 2 ∧
      (updateGame demoEnv mixedState).missedBugs = 2 ∧
      (updateGame demoEnv mixedState).score = 4 ∧
      (updateGame demoEnv mixedState).bugs =
        [{ x := 90, y := 90, radius := 25, lifetime := 3000, createdAt := 500, caught := false,
           wiggle := 0, processed := false }] :=
  ⟨⟨by decide!, fun i _ => expiryRun_clock i, expiryRun_rand⟩,
    expiry_penalises_unprocessed_bugs demoEnv
      (run demoEnv (Game.initial expiryClock expiryRand) [[]]) 1001
      (by decide!) (fun i _ => expiryRun_clock i) expiryRun_rand,
    by decide!, by decide!, by decide!, by decide!, by decide!,
    ⟨by decide!, fun _ _ => rfl, fun _ => by show (0 : ℚ) ≤ 1 / 2; norm_num⟩,
    expiry_penalises_unprocessed_bugs demoEnv mixedState 1000
      (by decide!) (fun _ _ => rfl) (fun _ => by show (0 : ℚ) ≤ 1 / 2; norm_num),
    by decide!, by decide!, by decide!, by decide!, by decide!⟩

/-! ## C5: the exact score -/

section Replay

theorem expireBug_score_exact (w : Game) (b : Bug) :
    ∃ j : Nat, j ≤ 1 ∧ processedCount [(expireBug w b).2] = processedCount [b] + j ∧
      (expireBug w b).1.score = (if j = 0 then w.score else max 0 (w.score - 1)) := by
  by_cases hcond : (b.expiredAt (w.clock 0) && !b.caught && !b.processed) = true
  · have hp : b.processed = false := by
      simp only [Bool.and_eq_true, Bool.not_eq_true'] at hcond
      exact hcond.2
    refine ⟨1, le_refl _, ?_, ?_⟩
    · rw [expireBug_snd]
      unfold Bug.markEscaped
      rw [if_pos hcond]
      simp [processedCount, hp]
    · rw [(expireBug_escaped w b hcond).1]
      rfl
  · have hcond2 : (b.expiredAt (w.clock 0) && !b.caught && !b.processed) = false := by
      simpa using hcond
    refine ⟨0, by omega, ?_, ?_⟩
    · rw [expireBug_snd]
      unfold Bug.markEscaped
      rw [if_neg hcond]
      rfl
    · rw [expireBug_kept w b hcond2]
      rfl

theorem expireLoop_score_exact (w : Game) (bs : List Bug) (hs : 0 ≤ w.score) :
    ∃ j : Nat, processedCount (expireLoop w bs).2 = processedCount bs + j ∧
      (expireLoop w bs).1.score = max 0 (w.score - (j : Int)) := by
  induction bs generalizing w with
  | nil =>
    refine ⟨0, rfl, ?_⟩
    show w.score = max 0 (w.score - ((0 : Nat) : Int))
    push_cast
    omega
  | cons b bs ih =>
    obtain ⟨j1, a0, a1, a2⟩ := expireBug_score_exact w b
    have hs1 : 0 ≤ (expireBug w b).1.score := expireBug_score_nonneg w b hs
    obtain ⟨j2, b1, b2⟩ := ih (expireBug w b).1 hs1
    have hstep1 : (expireLoop w (b :: bs)).1 = (expireLoop (expireBug w b).1 bs).1 := rfl
    have hstep2 : (expireLoop w (b :: bs)).2 =
        (expireBug w b).2 :: (expireLoop (expireBug w b).1 bs).2 := rfl
    refine ⟨j1 + j2, ?_, ?_⟩
    · rw [hstep2, processedCount_cons, a1, b1, processedCount_cons b bs]
      omega
    · rw [hstep1, b2, a2]
      push_cast
      split <;> omega

theorem playing_frame_exact (env : Env) (w : Game) (preds : List Prediction)
    (hgo : w.gameOver = false) (hs : 0 ≤ w.score) :
    (showPredictions env w preds).score =
      frameScore w.score (frameCatches env w preds, frameEscapes env w preds) := by
  have hgo0 : (w.withHands preds).gameOver = false := hgo
  have hs0 : 0 ≤ (spawnStep env (w.withHands preds)).score := by
    rw [spawnStep_score]; exact hs
  obtain ⟨j, e1, e2⟩ := expireLoop_score_exact (spawnStep env (w.withHands preds))
    (spawnStep env (w.withHands preds)).bugs hs0
  have hesc : frameEscapes env w preds = j := by
    rw [frameEscapes_playing env w preds hgo]
    show processedCount (expireLoop _ _).2 - _ = j
    rw [e1]
    omega
  have hu : (updateGame env (w.withHands preds)).score =
      (expireLoop (spawnStep env (w.withHands preds))
        (spawnStep env (w.withHands preds)).bugs).1.score := by
    unfold updateGame
    rw [if_neg (by simp [hgo0]), removeStep_score]
    rfl
  have hstart : (drawBugs (updateSplashes (updateGame env (w.withHands preds)))).score =
      (updateGame env (w.withHands preds)).score := by
    show (updateSplashes (updateGame env (w.withHands preds))).score = _
    rw [updateSplashes_score]
  obtain ⟨c1, c2, _⟩ := foldl_collisions_spec
    ((handPredictions preds).map (fun (pred : Prediction) => pred.bbox))
    (drawBugs (updateSplashes (updateGame env (w.withHands preds))))
  have hcat : frameCatches env w preds =
      ((drawBugs (updateSplashes (updateGame env (w.withHands preds)))).bugs.filter
        (hitBy ((handPredictions preds).map (fun (pred : Prediction) => pred.bbox)))).length := by
    rw [frameCatches_playing env w preds hgo, showPredictions_playing env w preds hgo, c1,
      caughtCount_map_markCaught]
    omega
  rw [showPredictions_playing env w preds hgo, c2, ← hcat, hstart, hu, e2, hesc,
    spawnStep_score]
  rfl

theorem totalCatches_snoc (log : List (Nat × Nat)) (ce : Nat × Nat) :
    totalCatches (log ++ [ce]) = totalCatches log + ce.1 := by
  simp [totalCatches]

theorem totalEscapes_snoc (log : List (Nat × Nat)) (ce : Nat × Nat) :
    totalEscapes (log ++ [ce]) = totalEscapes log + ce.2 := by
  simp [totalEscapes]

theorem clampedScore_snoc (log : List (Nat × Nat)) (ce : Nat × Nat) :
    clampedScore (log ++ [ce]) = frameScore (clampedScore log) ce := by
  simp [clampedScore, List.foldl_append]

theorem ledgerFrame_agrees (env : Env) (l : Ledger) (t : Tally) (preds : List Prediction)
    (hst : t.state = l.state) (hs : 0 ≤ l.state.score)
    (hc : t.catches = totalCatches l.log) (he : t.escapes = totalEscapes l.log)
    (hsc : l.state.score = clampedScore l.log) :
    (tallyFrame env t preds).state = (ledgerFrame env l preds).state ∧
      (ledgerFrame env l preds).state = showPredictions env l.state preds ∧
      0 ≤ (ledgerFrame env l preds).state.score ∧
      (tallyFrame env t preds).catches = totalCatches (ledgerFrame env l preds).log ∧
      (tallyFrame env t preds).escapes = totalEscapes (ledgerFrame env l preds).log ∧
      (ledgerFrame env l preds).state.score = clampedScore (ledgerFrame env l preds).log := by
  obtain ⟨ts, tc, te⟩ := t
  obtain ⟨ls, ll⟩ := l
  dsimp only at hst hs hc he hsc
  subst hst hc he
  have hnn := score_nonneg_showPredictions env ts preds hs
  unfold tallyFrame ledgerFrame
  dsimp only
  by_cases hgo : ts.gameOver = true
  · rw [if_pos hgo, if_pos hgo]
    by_cases hend : (showPredictions env ts preds).gameOver = true
    · rw [if_pos hend, if_pos hend]
      refine ⟨rfl, rfl, hnn, rfl, rfl, ?_⟩
      show (showPredictions env ts preds).score = clampedScore ll
      rw [showPredictions_over_score env ts preds hgo hend]
      exact hsc
    · rw [if_neg hend, if_neg hend]
      refine ⟨rfl, rfl, hnn, rfl, rfl, ?_⟩
      show (showPredictions env ts preds).score = clampedScore []
      rw [showPredictions_restart_score env ts preds hgo (by simpa using hend)]
      rfl
  · rw [if_neg hgo, if_neg hgo]
    have hgo2 : ts.gameOver = false := by simpa using hgo
    refine ⟨rfl, rfl, hnn, ?_, ?_, ?_⟩
    · exact (totalCatches_snoc ll (frameCatches env ts preds, frameEscapes env ts preds)).symm
    · exact (totalEscapes_snoc ll (frameCatches env ts preds, frameEscapes env ts preds)).symm
    · show (showPredictions env ts preds).score = clampedScore (ll ++ [_])
      rw [clampedScore_snoc, ← hsc]
      exact playing_frame_exact env ts preds hgo2 hs

theorem foldl_ledgerFrame (env : Env) (frames : List (List Prediction)) (l : Ledger)
    (t : Tally) (hst : t.state = l.state) (hs : 0 ≤ l.state.score)
    (hc : t.catches = totalCatches l.log) (he : t.escapes = totalEscapes l.log)
    (hsc : l.state.score = clampedScore l.log) :
    (frames.foldl (ledgerFrame env) l).state = run env l.state frames ∧
      (frames.foldl (tallyFrame env) t).catches =
        totalCatches (frames.foldl (ledgerFrame env) l).log ∧
      (frames.foldl (tallyFrame env) t).escapes =
        totalEscapes (frames.foldl (ledgerFrame env) l).log ∧
      (frames.foldl (ledgerFrame env) l).state.score =
        clampedScore (frames.foldl (ledgerFrame env) l).log := by
  induction frames generalizing l t with
  | nil => exact ⟨rfl, hc, he, hsc⟩
  | cons p ps ih =>
    obtain ⟨a1, a2, a3, a4, a5, a6⟩ := ledgerFrame_agrees env l t p hst hs hc he hsc
    obtain ⟨i1, i2, i3, i4⟩ := ih (ledgerFrame env l p) (tallyFrame env t p) a1 a3 a4 a5 a6
    rw [List.foldl_cons, List.foldl_cons, run_cons]
    rw [a2] at i1
    exact ⟨i1, i2, i3, i4⟩

theorem foldl_absorbStep (log : List (Nat × Nat)) (s : Int) (a : Nat) (hs : 0 ≤ s) :
    (log.foldl absorbStep (s, a)).1 = log.foldl frameScore s ∧
      0 ≤ log.foldl frameScore s ∧
      log.foldl frameScore s + (totalEscapes log : Int) + (a : Int) =
        s + (totalCatches log : Int) + ((log.foldl absorbStep (s, a)).2 : Int) := by
  induction log generalizing s a with
  | nil =>
    refine ⟨rfl, hs, ?_⟩
    simp [totalEscapes, totalCatches]
  | cons ce r ih =>
    have hf : frameScore s ce = max 0 (s - (ce.2 : Int)) + (ce.1 : Int) := rfl
    have hs1 : 0 ≤ frameScore s ce := by
      rw [hf]
      omega
    obtain ⟨i1, i2, i3⟩ := ih (frameScore s ce) (a + (ce.2 - s.toNat)) hs1
    have hstep : (ce :: r).foldl absorbStep (s, a) =
        r.foldl absorbStep (frameScore s ce, a + (ce.2 - s.toNat)) := rfl
    have hte : totalEscapes (ce :: r) = ce.2 + totalEscapes r := by
      simp [totalEscapes]
    have htc : totalCatches (ce :: r) = ce.1 + totalCatches r := by
      simp [totalCatches]
    rw [hstep, List.foldl_cons, hte, htc]
    refine ⟨i1, i2, ?_⟩
    push_cast at i3 ⊢
    omega

theorem clampedScore_eq (log : List (Nat × Nat)) :
    0 ≤ clampedScore log ∧
      clampedScore log =
        (totalCatches log : Int) - (totalEscapes log : Int) + (absorbed log : Int) := by
  obtain ⟨_, h2, h3⟩ := foldl_absorbStep log 0 0 (le_refl _)
  refine ⟨h2, ?_⟩
  unfold clampedScore absorbed
  push_cast at h3
  omega

/-- The replay at the demonstration run (an escape at score `0`, then a
catch: one absorbed escape, score `1`) and at the event sequence catch, catch,
escape (nothing absorbed, score `1`). -/
theorem replay_demo :
    (ledger demoEnv (Game.initial stepClock demoRand) demoFrames).log =
        [(0, 0), (0, 1), (0, 0), (1, 0)] ∧
      absorbed (ledger demoEnv (Game.initial stepClock demoRand) demoFrames).log = 1 ∧
      clampedScore (ledger demoEnv (Game.initial stepClock demoRand) demoFrames).log = 1 ∧
      (run demoEnv (Game.initial stepClock demoRand) demoFrames).score = 1 ∧
      clampedScore [(1, 0), (1, 0), (0, 1)] = 1 ∧
      absorbed [(1, 0), (1, 0), (0, 1)] = 0 :=
  ⟨by decide!, by decide!, by decide!, by decide!, by decide, by decide⟩

end Replay

/-- C5, amended: after any sequence of frames the score is what replaying the
Playing frames since the game started or was last restarted gives from `0`,
each frame applying `s ↦ max 0 (s - escapes of the frame) + catches of the
frame` (`clampedScore` of the ledger).  With `catches` the number of bugs
marked caught, `escapes` the number of bugs marked processed and `absorbed` the
number of those escapes that happened while the score was `0`,
`score = catches - escapes + absorbed`; hence `score = max 0 (catches - escapes)`
exactly when no escape happened at score `0` or the score is `0`. -/
theorem score_replays_frame_ledger (env : Env) (clock rand : Nat → ℚ)
    (frames : List (List Prediction)) :
    (ledger env (Game.initial clock rand) frames).state =
        run env (Game.initial clock rand) frames ∧
      (tally env (Game.initial clock rand) frames).catches =
        totalCatches (ledger env (Game.initial clock rand) frames).log ∧
      (tally env (Game.initial clock rand) frames).escapes =
        totalEscapes (ledger env (Game.initial clock rand) frames).log ∧
      (run env (Game.initial clock rand) frames).score =
        clampedScore (ledger env (Game.initial clock rand) frames).log ∧
      (run env (Game.initial clock rand) frames).score =
        ((tally env (Game.initial clock rand) frames).catches : Int) -
          ((tally env (Game.initial clock rand) frames).escapes : Int) +
          (absorbed (ledger env (Game.initial clock rand) frames).log : Int) ∧
      ((run env (Game.initial clock rand) frames).score =
          max 0 (((tally env (Game.initial clock rand) frames).catches : Int) -
            ((tally env (Game.initial clock rand) frames).escapes : Int)) ↔
        absorbed (ledger env (Game.initial clock rand) frames).log = 0 ∨
          (run env (Game.initial clock rand) frames).score = 0) := by
  obtain ⟨h1, h2, h3, h4⟩ := foldl_ledgerFrame env frames
    { state := Game.initial clock rand, log := [] }
    { state := Game.initial clock rand, catches := 0, escapes := 0 }
    rfl (le_refl _) rfl rfl rfl
  have h1b : (ledger env (Game.initial clock rand) frames).state =
      run env (Game.initial clock rand) frames := h1
  have h2b : (tally env (Game.initial clock rand) frames).catches =
      totalCatches (ledger env (Game.initial clock rand) frames).log := h2
  have h3b : (tally env (Game.initial clock rand) frames).escapes =
      totalEscapes (ledger env (Game.initial clock rand) frames).log := h3
  have h4b : (ledger env (Game.initial clock rand) frames).state.score =
      clampedScore (ledger env (Game.initial clock rand) frames).log := h4
  rw [h1b] at h4b
  obtain ⟨k1, k2⟩ := clampedScore_eq (ledger env (Game.initial clock rand) frames).log
  rw [← h4b, ← h2b, ← h3b] at k2
  rw [← h4b] at k1
  refine ⟨h1b, h2b, h3b, h4b, k2, ?_⟩
  constructor
  · intro h
    omega
  · intro h
    omega

end BugCatcher
